import Mathlib

/- Shallow embedding of the Pac-Man simulation engine: src/types.ts, src/constants.ts,
   src/utils/ghostAI.ts and the game-screen component (src/unnamed/part_000).
   Machine numbers are modeled as ℚ (continuous positions, timestamps) and ℤ/ℕ
   (grid indices, counters); JavaScript Math.round / Math.floor are modeled explicitly. -/

/-- Direction enum from src/types.ts. -/
inductive Direction where
  | UP | DOWN | LEFT | RIGHT | NONE
deriving DecidableEq, Repr

/-- Ghost status enum from src/types.ts. -/
inductive GhostStatus where
  | NORMAL | VULNERABLE | EATEN
deriving DecidableEq, Repr

/-- Internal round/pause state machine of the game-screen component (part_000 line 28). -/
inductive InternalGameStatus where
  | ROUND_STARTING | PLAYING | RESPAWNING | LEVEL_TRANSITION
deriving DecidableEq, Repr

/-- Tile values from src/types.ts TileType (the grid stores the raw numbers). -/
def TileType.WALL : ℕ := 0

/-- Pellet tile value. -/
def TileType.PELLET : ℕ := 1

/-- Empty (runtime) tile value. -/
def TileType.EMPTY : ℕ := 2

/-- Power-pellet tile value. -/
def TileType.POWER_PELLET : ℕ := 3

/-- Pac-Man spawn marker tile value. -/
def TileType.PACMAN_SPAWN : ℕ := 9

/-- Ghost spawn marker tile value. -/
def TileType.GHOST_SPAWN : ℕ := 8

/-- Continuous position in tile units (src/types.ts Position). -/
structure Position where
  x : ℚ
  y : ℚ
deriving DecidableEq, Repr

/-- Unit direction vectors (src/constants.ts DIRECTIONS). -/
def DIRECTIONS : Direction → Position
  | Direction.UP => ⟨0, -1⟩
  | Direction.DOWN => ⟨0, 1⟩
  | Direction.LEFT => ⟨-1, 0⟩
  | Direction.RIGHT => ⟨1, 0⟩
  | Direction.NONE => ⟨0, 0⟩

/-- The DIRECTIONS vectors over ℤ, for use where the source adds them to integer grid
indices (ghostAI.ts getAvailableMoves). -/
def dirStep : Direction → ℤ × ℤ
  | Direction.UP => (0, -1)
  | Direction.DOWN => (0, 1)
  | Direction.LEFT => (-1, 0)
  | Direction.RIGHT => (1, 0)
  | Direction.NONE => (0, 0)

/-- The maze layout (src/constants.ts INITIAL_MAP): 0 wall, 1 pellet, 2 empty,
3 power pellet, 8 ghost spawn, 9 pacman spawn. -/
def INITIAL_MAP : List (List ℕ) :=
  [[0, 0, 0, 0, 0, 0, 0, 0, 0, 0, 0, 0, 0, 0, 0, 0, 0, 0, 0],
   [0, 3, 1, 1, 1, 1, 1, 1, 1, 0, 1, 1, 1, 1, 1, 1, 1, 3, 0],
   [0, 1, 0, 0, 1, 0, 0, 0, 1, 0, 1, 0, 0, 0, 1, 0, 0, 1, 0],
   [0, 1, 0, 0, 1, 0, 0, 0, 1, 0, 1, 0, 0, 0, 1, 0, 0, 1, 0],
   [0, 1, 1, 1, 1, 1, 1, 1, 1, 1, 1, 1, 1, 1, 1, 1, 1, 1, 0],
   [0, 1, 0, 0, 1, 0, 1, 0, 0, 0, 0, 0, 1, 0, 1, 0, 0, 1, 0],
   [0, 1, 1, 1, 1, 0, 1, 1, 1, 0, 1, 1, 1, 0, 1, 1, 1, 1, 0],
   [0, 0, 0, 0, 1, 0, 0, 0, 2, 2, 2, 0, 0, 0, 1, 0, 0, 0, 0],
   [2, 2, 2, 0, 1, 0, 2, 2, 8, 8, 8, 2, 2, 0, 1, 0, 2, 2, 2],
   [0, 0, 0, 0, 1, 0, 2, 0, 0, 2, 0, 0, 2, 0, 1, 0, 0, 0, 0],
   [0, 1, 1, 1, 1, 1, 1, 1, 1, 9, 1, 1, 1, 1, 1, 1, 1, 1, 0],
   [0, 1, 0, 0, 1, 0, 0, 0, 1, 0, 1, 0, 0, 0, 1, 0, 0, 1, 0],
   [0, 1, 1, 0, 1, 1, 1, 1, 1, 0, 1, 1, 1, 1, 1, 0, 1, 1, 0],
   [0, 0, 1, 0, 1, 0, 1, 0, 0, 0, 0, 0, 1, 0, 1, 0, 1, 0, 0],
   [0, 3, 1, 1, 1, 0, 1, 1, 1, 0, 1, 1, 1, 0, 1, 1, 1, 3, 0],
   [0, 0, 0, 0, 0, 0, 0, 0, 0, 0, 0, 0, 0, 0, 0, 0, 0, 0, 0]]

/-- Grid width (src/constants.ts MAP_WIDTH = INITIAL_MAP[0].length). -/
def MAP_WIDTH : ℕ := (INITIAL_MAP.headD []).length

/-- Grid height (src/constants.ts MAP_HEIGHT = INITIAL_MAP.length). -/
def MAP_HEIGHT : ℕ := INITIAL_MAP.length

/-- Initial ghost roster entry (src/constants.ts INITIAL_GHOSTS element shape). -/
structure InitialGhost where
  id : ℕ
  color : String
  startPos : Position
deriving DecidableEq, Repr

/-- The six-ghost roster (src/constants.ts INITIAL_GHOSTS). -/
def INITIAL_GHOSTS : List InitialGhost :=
  [⟨1, "bg-red-500", ⟨9, 8⟩⟩,
   ⟨2, "bg-pink-400", ⟨8, 8⟩⟩,
   ⟨3, "bg-cyan-400", ⟨10, 8⟩⟩,
   ⟨4, "bg-orange-400", ⟨9, 7⟩⟩,
   ⟨5, "bg-purple-400", ⟨8, 7⟩⟩,
   ⟨6, "bg-green-400", ⟨10, 7⟩⟩]

/-- Per-round configuration (src/constants.ts ROUND_CONFIGS entry shape). -/
structure RoundConfig where
  speed : ℚ
  name : String
  ghostCount : ℕ
deriving DecidableEq, Repr

/-- Round configurations (src/constants.ts ROUND_CONFIGS, keys 1..3). The component only
ever accesses rounds 1..3; the catch-all arm extends the map arbitrarily with the
round-1 record (JavaScript would fault on a missing key, which is unreachable). -/
def ROUND_CONFIGS : ℕ → RoundConfig
  | 2 => ⟨90, "MODERATE", 4⟩
  | 3 => ⟨70, "HARD", 6⟩
  | _ => ⟨130, "EASY", 3⟩

/-- Round-start pause descriptor (src/constants.ts ROUND_START_PAUSE entry shape). -/
structure PauseConfig where
  duration : ℚ
  message : String
deriving DecidableEq, Repr

/-- Round-start pauses (src/constants.ts ROUND_START_PAUSE, keys 1..3; missing keys
fall back to the default at the call site in initRound). -/
def ROUND_START_PAUSE : ℕ → Option PauseConfig
  | 1 => some ⟨2000, "GET READY"⟩
  | 2 => some ⟨2000, "STAY SHARP"⟩
  | 3 => some ⟨3000, "FINAL ROUND"⟩
  | _ => none

/-- Vulnerability window length in milliseconds (src/constants.ts). -/
def VULNERABLE_DURATION_MS : ℚ := 10000

/-- JavaScript Math.round: round half toward positive infinity. -/
def jsRound (q : ℚ) : ℤ := ⌊q + 1/2⌋

/-- JavaScript Math.floor. -/
def jsFloor (q : ℚ) : ℤ := ⌊q⌋

/-- Tile lookup grid[y][x]; call sites in the source bounds-check first, the default 0
(WALL) is never relied on at in-bounds indices. -/
def tileAt (grid : List (List ℕ)) (x y : ℤ) : ℕ :=
  (grid.getD y.toNat []).getD x.toNat 0

/-- Tile assignment grid[y][x] = v. -/
def setTile (grid : List (List ℕ)) (x y : ℤ) (v : ℕ) : List (List ℕ) :=
  grid.set y.toNat ((grid.getD y.toNat []).set x.toNat v)

/-- A tile counts toward pelletsRemaining when it is PELLET or POWER_PELLET
(part_000 lines 159-168). -/
def isPelletTile (t : ℕ) : Bool :=
  t == TileType.PELLET || t == TileType.POWER_PELLET

/-- Number of PELLET/POWER_PELLET tiles in the grid (the count computed by the
initRound scan, part_000 lines 159-168). -/
def countPellets (grid : List (List ℕ)) : ℕ :=
  (grid.map (fun row => row.countP isPelletTile)).sum

/-- Power-pellet locations collected by the initRound scan, in row-major (y outer,
x inner) order, each as the integer pair (x, y) (part_000 lines 159-168; the source
stores Position records holding the integer grid indices). -/
def powerPelletLocsOf (grid : List (List ℕ)) : List (ℤ × ℤ) :=
  (grid.enum.map (fun p =>
    p.2.enum.filterMap (fun q =>
      if q.2 = TileType.POWER_PELLET then some ((q.1 : ℤ), (p.1 : ℤ)) else none))).flatten

/-- The grid keeps its statically-declared rectangular shape. -/
def gridWellFormed (grid : List (List ℕ)) : Prop :=
  grid.length = MAP_HEIGHT ∧ ∀ row ∈ grid, row.length = MAP_WIDTH

/-- All recorded power-pellet locations are in-bounds grid indices. -/
def locsInBounds (locs : List (ℤ × ℤ)) : Prop :=
  ∀ p ∈ locs, 0 ≤ p.1 ∧ p.1 < (MAP_WIDTH : ℤ) ∧ 0 ≤ p.2 ∧ p.2 < (MAP_HEIGHT : ℤ)

/-- Ghost entity (src/types.ts GhostEntity). -/
structure GhostEntity where
  id : ℕ
  pos : Position
  color : String
  startPos : Position
  direction : Direction
  status : GhostStatus
deriving DecidableEq, Repr

/-- Placeholder ghost for list lookups; every use is guarded by an in-range index, so
its field values are never observed (EATEN status makes it a fixed point of the
status-update maps, which keeps lookup lemmas default-independent). -/
def defaultGhost : GhostEntity :=
  ⟨0, ⟨0, 0⟩, "", ⟨0, 0⟩, Direction.NONE, GhostStatus.EATEN⟩

/-- Manhattan distance (ghostAI.ts getDistance). -/
def getDistance (p1 p2 : Position) : ℚ :=
  |p1.x - p2.x| + |p1.y - p2.y|

/-- Tile in front of an entity (ghostAI.ts getNextTile). -/
def getNextTile (pos : Position) (dir : Direction) : Position :=
  ⟨(jsRound (pos.x + (DIRECTIONS dir).x) : ℚ), (jsRound (pos.y + (DIRECTIONS dir).y) : ℚ)⟩

/-- Reverse of a direction (ghostAI.ts getOppositeDirection). -/
def getOppositeDirection : Direction → Direction
  | Direction.UP => Direction.DOWN
  | Direction.DOWN => Direction.UP
  | Direction.LEFT => Direction.RIGHT
  | Direction.RIGHT => Direction.LEFT
  | Direction.NONE => Direction.NONE

/-- Per-personality target selection (ghostAI.ts getTargetPosition). -/
def getTargetPosition (ghost : GhostEntity) (pacmanPos : Position) (pacmanDir : Direction)
    (blinkyPos : Position) (round : ℕ) : Position :=
  if round = 1 then pacmanPos
  else
    match ghost.id with
    | 1 => pacmanPos
    | 2 => ⟨pacmanPos.x + (DIRECTIONS pacmanDir).x * 4, pacmanPos.y + (DIRECTIONS pacmanDir).y * 4⟩
    | 3 =>
      if round < 3 then pacmanPos
      else
        ⟨blinkyPos.x + (pacmanPos.x + (DIRECTIONS pacmanDir).x * 2 - blinkyPos.x) * 2,
         blinkyPos.y + (pacmanPos.y + (DIRECTIONS pacmanDir).y * 2 - blinkyPos.y) * 2⟩
    | 4 =>
      if 8 < getDistance ghost.pos pacmanPos then pacmanPos
      else ⟨0, (MAP_HEIGHT : ℚ) - 1⟩
    | 5 => ⟨pacmanPos.x - (DIRECTIONS pacmanDir).x * 4, pacmanPos.y - (DIRECTIONS pacmanDir).y * 4⟩
    | 6 => ⟨(MAP_WIDTH : ℚ) - 1 - pacmanPos.x, (MAP_HEIGHT : ℚ) - 1 - pacmanPos.y⟩
    | _ => pacmanPos

/-- Fixed candidate-evaluation order (ghostAI.ts checkOrder). -/
def checkOrder : List Direction :=
  [Direction.UP, Direction.LEFT, Direction.DOWN, Direction.RIGHT]

/-- Valid directions from the ghost's rounded tile, excluding walls and (unless allowed)
the reverse direction; out-of-horizontal-bounds destinations are tunnel entries and
always admitted (ghostAI.ts getAvailableMoves). -/
def getAvailableMoves (ghost : GhostEntity) (grid : List (List ℕ)) (allowReverse : Bool) :
    List Direction :=
  let opposite := getOppositeDirection ghost.direction
  let x := jsRound ghost.pos.x
  let y := jsRound ghost.pos.y
  checkOrder.filter fun dir =>
    if !allowReverse && dir == opposite then false
    else
      let nextX := x + (dirStep dir).1
      let nextY := y + (dirStep dir).2
      if 0 ≤ nextY ∧ nextY < (MAP_HEIGHT : ℤ) ∧ 0 ≤ nextX ∧ nextX < (MAP_WIDTH : ℤ) then
        decide (tileAt grid nextX nextY ≠ TileType.WALL)
      else
        decide (nextX < 0 ∨ (MAP_WIDTH : ℤ) ≤ nextX)

/-- The minimizing loop of ghostAI.ts getNextGhostDirection lines 157-168: bestDir and
minDistance, with JavaScript Infinity modeled by ⊤ in WithTop ℚ. -/
def bestMoveFold (f : Direction → ℚ) (l : List Direction) (init : Direction × WithTop ℚ) :
    Direction × WithTop ℚ :=
  l.foldl
    (fun acc dir => if (f dir : WithTop ℚ) < acc.2 then (dir, (f dir : WithTop ℚ)) else acc)
    init

/-- Main AI decision function (ghostAI.ts getNextGhostDirection). Math.random() is
modeled by the extra parameter rnd, assumed to lie in the half-open unit interval. -/
def getNextGhostDirection (ghost : GhostEntity) (pacmanPos : Position) (pacmanDir : Direction)
    (blinkyPos : Position) (grid : List (List ℕ)) (round : ℕ) (rnd : ℚ) : Direction :=
  if ghost.status = GhostStatus.VULNERABLE then
    let movesNoReverse := getAvailableMoves ghost grid false
    if 0 < movesNoReverse.length then
      movesNoReverse.getD (jsFloor (rnd * movesNoReverse.length)).toNat Direction.NONE
    else
      getOppositeDirection ghost.direction
  else
    let target := getTargetPosition ghost pacmanPos pacmanDir blinkyPos round
    let validMoves := getAvailableMoves ghost grid false
    if validMoves.length = 0 then getOppositeDirection ghost.direction
    else if validMoves.length = 1 then validMoves.getD 0 Direction.NONE
    else
      (bestMoveFold (fun dir => getDistance (getNextTile ghost.pos dir) target)
        validMoves (validMoves.headD Direction.NONE, (⊤ : WithTop ℚ))).1

/-- Pac-Man's mutable record in the component state (part_000 line 41). -/
structure PacmanState where
  pos : Position
  dir : Direction
  nextDir : Direction
  lastMoveTime : ℚ
deriving DecidableEq, Repr

/-- The simulation state held in the component's gameState ref (part_000 lines 39-63).
Presentation-only fields (score popups, FPS counters, pause message mirroring into the
React UI state) are omitted: per spec §3 they never affect simulation state. The two
host collaborators are modeled explicitly: savedScores logs every saveScore call and
gameOverCalled records an onGameOver invocation. -/
structure GameState where
  grid : List (List ℕ)
  pacman : PacmanState
  ghosts : List GhostEntity
  score : ℕ
  lives : ℤ
  round : ℕ
  vulnerableUntil : ℚ
  ghostsEatenStreak : ℕ
  status : InternalGameStatus
  pelletsRemaining : ℤ
  powerPelletLocations : List (ℤ × ℤ)
  currentPowerPellets : ℤ
  pauseTimer : ℚ
  pauseDuration : ℚ
  pauseMessage : String
  savedScores : List ℕ
  gameOverCalled : Option ℕ
deriving DecidableEq, Repr

/-- Round (re)initialization (part_000 initRound, lines 143-209): rebuilds the grid and
power-pellet location list from INITIAL_MAP, recounts pellets, resets entities, enters
ROUND_STARTING with the round's pause, and zeroes the score unless keepScore. -/
def initRound (roundNum : ℕ) (keepScore : Bool) (st : GameState) : GameState :=
  let config := ROUND_CONFIGS roundNum
  let pauseConfig := (ROUND_START_PAUSE roundNum).getD ⟨2000, "READY"⟩
  let initialGhosts := (INITIAL_GHOSTS.take config.ghostCount).map fun g =>
    ({ id := g.id, pos := g.startPos, color := g.color, startPos := g.startPos,
       direction := Direction.UP, status := GhostStatus.NORMAL } : GhostEntity)
  let newGrid := INITIAL_MAP
  { st with
    grid := newGrid
    pelletsRemaining := (countPellets newGrid : ℤ)
    powerPelletLocations := powerPelletLocsOf newGrid
    currentPowerPellets := ((powerPelletLocsOf newGrid).length : ℤ)
    pacman := { pos := ⟨9, 10⟩, dir := Direction.RIGHT, nextDir := Direction.RIGHT,
                lastMoveTime := 0 }
    ghosts := initialGhosts
    round := roundNum
    vulnerableUntil := 0
    ghostsEatenStreak := 0
    status := InternalGameStatus.ROUND_STARTING
    pauseTimer := pauseConfig.duration
    pauseDuration := pauseConfig.duration
    pauseMessage := "ROUND " ++ toString roundNum ++ " - " ++ pauseConfig.message
    score := if keepScore then st.score else 0 }

/-- Post-death respawn (part_000 resetPositions, lines 211-238): snap Pac-Man and every
non-EATEN ghost back to its start, enter RESPAWNING with a fixed 1500 ms pause. -/
def resetPositions (st : GameState) : GameState :=
  { st with
    pacman := { st.pacman with
                pos := ⟨9, 10⟩
                dir := Direction.RIGHT
                nextDir := Direction.RIGHT }
    ghosts := st.ghosts.enum.map fun p =>
      if p.2.status ≠ GhostStatus.EATEN then
        { p.2 with pos := ((INITIAL_GHOSTS.getD p.1 ⟨0, "", ⟨0, 0⟩⟩).startPos),
                   direction := Direction.UP }
      else p.2
    status := InternalGameStatus.RESPAWNING
    pauseTimer := 1500
    pauseDuration := 1500
    pauseMessage := "READY!" }

/-- Player move-validity check (part_000 isValidMove, lines 266-279): round the
destination, wrap horizontally, reject out-of-vertical-bounds, and require the tile to
be neither WALL nor GHOST_SPAWN. -/
def isValidMove (grid : List (List ℕ)) (x y : ℚ) (dir : Direction) : Bool :=
  let move := DIRECTIONS dir
  let nextX0 := jsRound (x + move.x)
  let nextY := jsRound (y + move.y)
  let nextX1 := if nextX0 < 0 then (MAP_WIDTH : ℤ) - 1 else nextX0
  let nextX := if (MAP_WIDTH : ℤ) ≤ nextX1 then 0 else nextX1
  if nextY < 0 ∨ (MAP_HEIGHT : ℤ) ≤ nextY then false
  else
    decide (tileAt grid nextX nextY ≠ TileType.WALL ∧
            tileAt grid nextX nextY ≠ TileType.GHOST_SPAWN)

/-- Tunnel wrap applied after the movement phase, identical for Pac-Man (part_000 lines
386-388) and each ghost (lines 511-513): two sequential strict-threshold checks. -/
def tunnelWrapX (x : ℚ) : ℚ :=
  let x1 := if x < -(1/2) then (MAP_WIDTH : ℚ) - 1/2 else x
  if (MAP_WIDTH : ℚ) - 1/2 < x1 then -(1/2) else x1

/-- Pause-phase tick (part_000 update lines 299-313, the ROUND_STARTING/RESPAWNING
path): decrement the pause timer by the elapsed delta and switch to PLAYING once it is
zero or below; update returns immediately afterwards (line 315), so nothing else in the
tick runs. -/
def pauseTick (st : GameState) (delta : ℚ) : GameState :=
  let t := st.pauseTimer - delta
  if t ≤ 0 then { st with pauseTimer := t, status := InternalGameStatus.PLAYING }
  else { st with pauseTimer := t }

/-- The power-pellet respawn scan (part_000 update lines 418-425): restore each recorded
location that is currently EMPTY, counting how many were restored; the accumulator c is
the running respawnCount. -/
def restorePellets (grid : List (List ℕ)) (locs : List (ℤ × ℤ)) (c : ℕ) :
    List (List ℕ) × ℕ :=
  match locs with
  | [] => (grid, c)
  | p :: rest =>
    if tileAt grid p.1 p.2 = TileType.EMPTY then
      restorePellets (setTile grid p.1 p.2 TileType.POWER_PELLET) rest (c + 1)
    else
      restorePellets grid rest c

/-- Power-pellet consumption (part_000 update lines 400-440): award 50 points, clear
the tile, start the vulnerability window, reset the capture streak, make every
non-EATEN ghost VULNERABLE and, when the live power-pellet count reaches zero while
some ghost is alive, respawn power pellets at the recorded locations currently EMPTY
(the counter updates only apply when at least one tile was actually restored). -/
def eatPowerPellet (st : GameState) (time : ℚ) (pX pY : ℤ) : GameState :=
  let cpp := st.currentPowerPellets - 1
  let ghosts1 := st.ghosts.map fun g =>
    if g.status ≠ GhostStatus.EATEN then { g with status := GhostStatus.VULNERABLE }
    else g
  let grid1 := setTile st.grid pX pY TileType.EMPTY
  let st1 :=
    { st with
      score := st.score + 50
      grid := grid1
      pelletsRemaining := st.pelletsRemaining - 1
      currentPowerPellets := cpp
      vulnerableUntil := time + VULNERABLE_DURATION_MS
      ghostsEatenStreak := 0
      ghosts := ghosts1 }
  if cpp = 0 then
    if ghosts1.any (fun g => decide (g.status ≠ GhostStatus.EATEN)) then
      let r := restorePellets grid1 st.powerPelletLocations 0
      if 0 < r.2 then
        { st1 with
          grid := r.1
          currentPowerPellets := (r.2 : ℤ)
          pelletsRemaining := st1.pelletsRemaining + (r.2 : ℤ) }
      else { st1 with grid := r.1 }
    else st1
  else st1

/-- Pellet-eating phase of a tick (part_000 update lines 390-441): consume the tile
under Pac-Man's rounded position; a plain pellet awards 10 points and decrements the
counter, a power pellet is handled by eatPowerPellet. -/
def eatPellets (st : GameState) (time : ℚ) : GameState :=
  let pX := jsRound st.pacman.pos.x
  let pY := jsRound st.pacman.pos.y
  if 0 ≤ pY ∧ pY < (MAP_HEIGHT : ℤ) ∧ 0 ≤ pX ∧ pX < (MAP_WIDTH : ℤ) then
    let item := tileAt st.grid pX pY
    if item = TileType.PELLET then
      { st with
        score := st.score + 10
        grid := setTile st.grid pX pY TileType.EMPTY
        pelletsRemaining := st.pelletsRemaining - 1 }
    else if item = TileType.POWER_PELLET then
      eatPowerPellet st time pX pY
    else st
  else st

/-- The pellet phase together with the level-completion dispatch that follows it
(part_000 update lines 443-446): the Bool is true exactly when handleLevelComplete is
invoked, i.e. when pelletsRemaining is 0 after eating. -/
def pelletPhase (st : GameState) (time : ℚ) : GameState × Bool :=
  let s := eatPellets st time
  (s, s.pelletsRemaining == 0)

/-- Vulnerability-expiry check of a tick (part_000 update lines 517-523): once the
global threshold has passed, clear it, reset the capture streak and revert every
VULNERABLE ghost to NORMAL. -/
def vulnerabilityExpiry (st : GameState) (time : ℚ) : GameState :=
  if 0 < st.vulnerableUntil ∧ st.vulnerableUntil < time then
    { st with
      vulnerableUntil := 0
      ghostsEatenStreak := 0
      ghosts := st.ghosts.map fun g =>
        if g.status = GhostStatus.VULNERABLE then { g with status := GhostStatus.NORMAL }
        else g }
  else st

/-- End-of-run or demotion handling (part_000 handleDemotionOrGameOver, lines 584-597):
suspend physics via LEVEL_TRANSITION; on round 1 persist the score (saveScore) and end
the run (onGameOver); otherwise restore lives to 3 and restart at round 1 keeping the
score. -/
def handleDemotionOrGameOver (st : GameState) : GameState :=
  let st1 := { st with status := InternalGameStatus.LEVEL_TRANSITION }
  if st1.round = 1 then
    { st1 with savedScores := st1.savedScores ++ [st1.score], gameOverCalled := some st1.score }
  else
    initRound 1 true { st1 with lives := 3 }

/-- Death handling (part_000 handleDeath, lines 572-582): decrement lives; with lives
exhausted go to demotion/game-over, otherwise reset positions and respawn. -/
def handleDeath (st : GameState) : GameState :=
  let st1 := { st with lives := st.lives - 1 }
  if st1.lives ≤ 0 then handleDemotionOrGameOver st1
  else resetPositions st1

/-- Collision handling for the ghost at index i (part_000 update lines 531-560, one
iteration of the collision pass): EATEN ghosts are skipped; within half a tile
(the source compares Math.sqrt(dx²+dy²) < 0.5, equivalent to the squared comparison
used here since both sides are nonnegative), a VULNERABLE ghost is eaten and scores
200·2^(streak-1) with the incremented streak, any other ghost kills Pac-Man. -/
def collisionStep (st : GameState) (i : ℕ) (_time : ℚ) : GameState :=
  let g := st.ghosts.getD i defaultGhost
  if g.status = GhostStatus.EATEN then st
  else
    let dx := g.pos.x - st.pacman.pos.x
    let dy := g.pos.y - st.pacman.pos.y
    if dx * dx + dy * dy < 1/4 then
      if g.status = GhostStatus.VULNERABLE then
        let streak := st.ghostsEatenStreak + 1
        let multiplier := 2 ^ (streak - 1)
        let points := 200 * multiplier
        { st with
          ghosts := st.ghosts.set i { g with status := GhostStatus.EATEN }
          ghostsEatenStreak := streak
          score := st.score + points }
      else handleDeath st
    else st

/-- A concrete simulation state used to instantiate theorems: the freshly scanned
INITIAL_MAP with Pac-Man at his spawn and an empty roster; individual fields are
overridden per scenario. -/
def baseState : GameState :=
  { grid := INITIAL_MAP
    pacman := { pos := ⟨9, 10⟩, dir := Direction.RIGHT, nextDir := Direction.RIGHT,
                lastMoveTime := 0 }
    ghosts := []
    score := 0
    lives := 3
    round := 1
    vulnerableUntil := 0
    ghostsEatenStreak := 0
    status := InternalGameStatus.PLAYING
    pelletsRemaining := (countPellets INITIAL_MAP : ℤ)
    powerPelletLocations := powerPelletLocsOf INITIAL_MAP
    currentPowerPellets := ((powerPelletLocsOf INITIAL_MAP).length : ℤ)
    pauseTimer := 0
    pauseDuration := 0
    pauseMessage := ""
    savedScores := []
    gameOverCalled := none }

/-- A concrete NORMAL ghost standing centered on the open junction tile (4, 4) of
INITIAL_MAP while moving DOWN; its non-reverse moves there are LEFT, DOWN, RIGHT. -/
def ghostA : GhostEntity :=
  ⟨1, ⟨4, 4⟩, "bg-red-500", ⟨9, 8⟩, Direction.DOWN, GhostStatus.NORMAL⟩

/-- A concrete VULNERABLE ghost standing on Pac-Man's spawn tile (9, 10). -/
def ghostV : GhostEntity :=
  ⟨2, ⟨9, 10⟩, "bg-pink-400", ⟨8, 8⟩, Direction.UP, GhostStatus.VULNERABLE⟩

/-- A concrete NORMAL ghost in the spawn corridor at (9, 9) moving UP; its only
non-reverse move is UP into the GHOST_SPAWN tile. -/
def ghostB : GhostEntity :=
  ⟨3, ⟨9, 9⟩, "bg-cyan-400", ⟨10, 8⟩, Direction.UP, GhostStatus.NORMAL⟩

/-- Pac-Man parked on the power-pellet tile (1, 1) of INITIAL_MAP. -/
def pac11 : PacmanState :=
  { pos := ⟨1, 1⟩, dir := Direction.RIGHT, nextDir := Direction.RIGHT, lastMoveTime := 0 }

/-- Scenario: Pac-Man on a power pellet with one NORMAL ghost in play. -/
def c4state : GameState :=
  { baseState with pacman := pac11, ghosts := [ghostA] }

/-- Scenario: Pac-Man on the power-pellet tile with one live power pellet left, so
consuming it triggers the respawn scan; one NORMAL ghost is in play. -/
def c9state : GameState :=
  { baseState with pacman := pac11, ghosts := [ghostA], currentPowerPellets := 1 }

/-- Scenario: a VULNERABLE ghost overlapping Pac-Man at his spawn, streak 0. -/
def c5state : GameState :=
  { baseState with ghosts := [ghostV] }

theorem MAP_WIDTH_eq : MAP_WIDTH = 19 := rfl

theorem MAP_HEIGHT_eq : MAP_HEIGHT = 16 := rfl

theorem listGetDSetSelf {α : Type} (l : List α) (i : ℕ) (v d : α) (h : i < l.length) :
    (l.set i v).getD i d = v := by
  induction l generalizing i with
  | nil => simp at h
  | cons a t ih =>
    cases i with
    | zero => rfl
    | succ n =>
      simp only [List.set, List.getD_cons_succ]
      exact ih n (by simpa using Nat.lt_of_succ_lt_succ h)

theorem listGetDSetNe {α : Type} (l : List α) (i j : ℕ) (v d : α) (h : i ≠ j) :
    (l.set i v).getD j d = l.getD j d := by
  induction l generalizing i j with
  | nil => simp [List.set]
  | cons a t ih =>
    cases i with
    | zero =>
      cases j with
      | zero => exact absurd rfl h
      | succ m => rfl
    | succ n =>
      cases j with
      | zero => rfl
      | succ m =>
        simp only [List.set, List.getD_cons_succ]
        exact ih n m (fun hnm => h (by rw [hnm]))

theorem listSumSet (l : List ℕ) (i : ℕ) (v : ℕ) (h : i < l.length) :
    (l.set i v).sum + l.getD i 0 = l.sum + v := by
  induction l generalizing i with
  | nil => simp at h
  | cons a t ih =>
    cases i with
    | zero => simp [List.set]; omega
    | succ n =>
      have := ih n (by simpa using Nat.lt_of_succ_lt_succ h)
      simp only [List.set, List.sum_cons, List.getD_cons_succ]
      omega

theorem listCountPSet (p : ℕ → Bool) (l : List ℕ) (i v : ℕ) (h : i < l.length) :
    (l.set i v).countP p + (if p (l.getD i 0) then 1 else 0)
      = l.countP p + (if p v then 1 else 0) := by
  induction l generalizing i with
  | nil => simp at h
  | cons a t ih =>
    cases i with
    | zero =>
      simp only [List.set, List.getD_cons_zero, List.countP_cons]
      omega
    | succ n =>
      have := ih n (by simpa using Nat.lt_of_succ_lt_succ h)
      simp only [List.set, List.countP_cons, List.getD_cons_succ]
      omega

theorem rowOf_mem (grid : List (List ℕ)) (y : ℤ) (hy : y.toNat < grid.length) :
    grid.getD y.toNat [] ∈ grid := by
  rw [List.getD_eq_getElem _ _ hy]
  exact List.getElem_mem hy

theorem rowOf_length (grid : List (List ℕ)) (y : ℤ) (hwf : gridWellFormed grid)
    (hy0 : 0 ≤ y) (hyh : y < (MAP_HEIGHT : ℤ)) :
    (grid.getD y.toNat []).length = MAP_WIDTH := by
  have hy : y.toNat < grid.length := by
    rw [hwf.1, MAP_HEIGHT_eq]
    rw [MAP_HEIGHT_eq] at hyh
    omega
  exact hwf.2 _ (rowOf_mem grid y hy)

theorem tileAt_setTile_self (grid : List (List ℕ)) (x y : ℤ) (v : ℕ)
    (hwf : gridWellFormed grid) (hx0 : 0 ≤ x) (hxw : x < (MAP_WIDTH : ℤ))
    (hy0 : 0 ≤ y) (hyh : y < (MAP_HEIGHT : ℤ)) :
    tileAt (setTile grid x y v) x y = v := by
  have hy : y.toNat < grid.length := by
    rw [hwf.1, MAP_HEIGHT_eq]; rw [MAP_HEIGHT_eq] at hyh; omega
  have hx : x.toNat < (grid.getD y.toNat []).length := by
    rw [rowOf_length grid y hwf hy0 hyh, MAP_WIDTH_eq]
    rw [MAP_WIDTH_eq] at hxw; omega
  unfold tileAt setTile
  rw [listGetDSetSelf _ _ _ _ hy, listGetDSetSelf _ _ _ _ hx]

theorem tileAt_setTile_ne (grid : List (List ℕ)) (x y x' y' : ℤ) (v : ℕ)
    (hwf : gridWellFormed grid)
    (hx0 : 0 ≤ x) (hy0 : 0 ≤ y) (hyh : y < (MAP_HEIGHT : ℤ))
    (hx'0 : 0 ≤ x') (hy'0 : 0 ≤ y')
    (hne : ¬(x' = x ∧ y' = y)) :
    tileAt (setTile grid x y v) x' y' = tileAt grid x' y' := by
  unfold tileAt setTile
  by_cases hy : y.toNat = y'.toNat
  · have hyy : y' = y := by omega
    have hxx : ¬ x' = x := fun hc => hne ⟨hc, hyy⟩
    have hxn : x.toNat ≠ x'.toNat := by omega
    have hylen : y.toNat < grid.length := by
      rw [hwf.1, MAP_HEIGHT_eq]; rw [MAP_HEIGHT_eq] at hyh; omega
    rw [← hy, listGetDSetSelf _ _ _ _ hylen, listGetDSetNe _ _ _ _ _ hxn]
  · rw [listGetDSetNe _ _ _ _ _ hy]

theorem gridWellFormed_setTile (grid : List (List ℕ)) (x y : ℤ) (v : ℕ)
    (hwf : gridWellFormed grid) (hy0 : 0 ≤ y) (hyh : y < (MAP_HEIGHT : ℤ)) :
    gridWellFormed (setTile grid x y v) := by
  constructor
  · rw [setTile, List.length_set]; exact hwf.1
  · intro row hr
    rcases List.mem_or_eq_of_mem_set hr with h | h
    · exact hwf.2 _ h
    · rw [h, List.length_set]
      exact rowOf_length grid y hwf hy0 hyh

theorem countPellets_setTile (grid : List (List ℕ)) (x y : ℤ) (v : ℕ)
    (hwf : gridWellFormed grid) (hx0 : 0 ≤ x) (hxw : x < (MAP_WIDTH : ℤ))
    (hy0 : 0 ≤ y) (hyh : y < (MAP_HEIGHT : ℤ)) :
    countPellets (setTile grid x y v) + (if isPelletTile (tileAt grid x y) then 1 else 0)
      = countPellets grid + (if isPelletTile v then 1 else 0) := by
  have hy : y.toNat < grid.length := by
    rw [hwf.1, MAP_HEIGHT_eq]; rw [MAP_HEIGHT_eq] at hyh; omega
  have hx : x.toNat < (grid.getD y.toNat []).length := by
    rw [rowOf_length grid y hwf hy0 hyh, MAP_WIDTH_eq]
    rw [MAP_WIDTH_eq] at hxw; omega
  have hylen : y.toNat < (grid.map (fun row => row.countP isPelletTile)).length := by
    rw [List.length_map]; exact hy
  have hsum := listSumSet (grid.map (fun row => row.countP isPelletTile)) y.toNat
    (((grid.getD y.toNat []).set x.toNat v).countP isPelletTile) hylen
  have hgetD : (grid.map (fun row => row.countP isPelletTile)).getD y.toNat 0
      = (grid.getD y.toNat []).countP isPelletTile := by
    have := List.getD_map grid ([] : List ℕ)
      (fun row => row.countP isPelletTile) (n := y.toNat)
    simpa using this
  have hcnt := listCountPSet isPelletTile (grid.getD y.toNat []) x.toNat v hx
  have hset : countPellets (setTile grid x y v)
      = ((grid.map (fun row => row.countP isPelletTile)).set y.toNat
          (((grid.getD y.toNat []).set x.toNat v).countP isPelletTile)).sum := by
    unfold countPellets setTile
    rw [List.map_set]
  have htile : tileAt grid x y = (grid.getD y.toNat []).getD x.toNat 0 := rfl
  have hcpg : countPellets grid = (grid.map (fun row => row.countP isPelletTile)).sum := rfl
  rw [hset, htile, hcpg]
  rw [hgetD] at hsum
  omega

theorem countPellets_pos (grid : List (List ℕ)) (x y : ℤ)
    (hwf : gridWellFormed grid) (hx0 : 0 ≤ x) (hxw : x < (MAP_WIDTH : ℤ))
    (hy0 : 0 ≤ y) (hyh : y < (MAP_HEIGHT : ℤ))
    (hp : isPelletTile (tileAt grid x y) = true) :
    0 < countPellets grid := by
  have hy : y.toNat < grid.length := by
    rw [hwf.1, MAP_HEIGHT_eq]; rw [MAP_HEIGHT_eq] at hyh; omega
  have hx : x.toNat < (grid.getD y.toNat []).length := by
    rw [rowOf_length grid y hwf hy0 hyh, MAP_WIDTH_eq]
    rw [MAP_WIDTH_eq] at hxw; omega
  have hmem : tileAt grid x y ∈ grid.getD y.toNat [] := by
    unfold tileAt
    rw [List.getD_eq_getElem _ _ hx]
    exact List.getElem_mem hx
  have hrowpos : 0 < (grid.getD y.toNat []).countP isPelletTile :=
    List.countP_pos_iff.mpr ⟨tileAt grid x y, hmem, hp⟩
  have hmemmap : (grid.getD y.toNat []).countP isPelletTile
      ∈ grid.map (fun row => row.countP isPelletTile) :=
    List.mem_map.mpr ⟨grid.getD y.toNat [], rowOf_mem grid y hy, rfl⟩
  have := List.single_le_sum (l := grid.map (fun row => row.countP isPelletTile))
    (fun n _ => Nat.zero_le n) _ hmemmap
  unfold countPellets
  omega

theorem restorePellets_wf (locs : List (ℤ × ℤ)) (grid : List (List ℕ)) (c : ℕ)
    (hwf : gridWellFormed grid) (hlocs : locsInBounds locs) :
    gridWellFormed (restorePellets grid locs c).1 := by
  induction locs generalizing grid c with
  | nil => exact hwf
  | cons p rest ih =>
    have hp := hlocs p (List.mem_cons_self p rest)
    have hrest : locsInBounds rest := fun q hq => hlocs q (List.mem_cons_of_mem _ hq)
    unfold restorePellets
    by_cases he : tileAt grid p.1 p.2 = TileType.EMPTY
    · rw [if_pos he]
      exact ih _ _ (gridWellFormed_setTile grid p.1 p.2 _ hwf hp.2.2.1 hp.2.2.2) hrest
    · rw [if_neg he]
      exact ih _ _ hwf hrest

theorem restorePellets_count (locs : List (ℤ × ℤ)) (grid : List (List ℕ)) (c : ℕ)
    (hwf : gridWellFormed grid) (hlocs : locsInBounds locs) :
    countPellets (restorePellets grid locs c).1 + c
      = countPellets grid + (restorePellets grid locs c).2 := by
  induction locs generalizing grid c with
  | nil => simp [restorePellets]
  | cons p rest ih =>
    have hp := hlocs p (List.mem_cons_self p rest)
    have hrest : locsInBounds rest := fun q hq => hlocs q (List.mem_cons_of_mem _ hq)
    unfold restorePellets
    by_cases he : tileAt grid p.1 p.2 = TileType.EMPTY
    · rw [if_pos he]
      have hwf2 := gridWellFormed_setTile grid p.1 p.2 TileType.POWER_PELLET hwf
        hp.2.2.1 hp.2.2.2
      have hstep := countPellets_setTile grid p.1 p.2 TileType.POWER_PELLET hwf
        hp.1 hp.2.1 hp.2.2.1 hp.2.2.2
      rw [he] at hstep
      have hnot : isPelletTile TileType.EMPTY = false := rfl
      have hyes : isPelletTile TileType.POWER_PELLET = true := rfl
      rw [hnot, hyes] at hstep
      simp only [if_true, Bool.false_eq_true, if_false] at hstep
      have := ih (setTile grid p.1 p.2 TileType.POWER_PELLET) (c + 1) hwf2 hrest
      omega
    · rw [if_neg he]
      exact ih grid c hwf hrest

theorem restorePellets_tileAt_notmem (locs : List (ℤ × ℤ)) (grid : List (List ℕ)) (c : ℕ)
    (hwf : gridWellFormed grid) (hlocs : locsInBounds locs)
    (x y : ℤ) (hx0 : 0 ≤ x) (hy0 : 0 ≤ y) (hmem : (x, y) ∉ locs) :
    tileAt (restorePellets grid locs c).1 x y = tileAt grid x y := by
  induction locs generalizing grid c with
  | nil => rfl
  | cons p rest ih =>
    have hp := hlocs p (List.mem_cons_self p rest)
    have hrest : locsInBounds rest := fun q hq => hlocs q (List.mem_cons_of_mem _ hq)
    have hmr : (x, y) ∉ rest := fun hc => hmem (List.mem_cons_of_mem _ hc)
    have hne : ¬(x = p.1 ∧ y = p.2) := by
      rintro ⟨h1, h2⟩
      exact hmem (by rw [h1, h2]; exact List.mem_cons_self _ _)
    unfold restorePellets
    by_cases he : tileAt grid p.1 p.2 = TileType.EMPTY
    · rw [if_pos he]
      have hwf2 := gridWellFormed_setTile grid p.1 p.2 TileType.POWER_PELLET hwf
        hp.2.2.1 hp.2.2.2
      rw [ih _ _ hwf2 hrest hmr]
      exact tileAt_setTile_ne grid p.1 p.2 x y TileType.POWER_PELLET hwf
        hp.1 hp.2.2.1 hp.2.2.2 hx0 hy0 hne
    · rw [if_neg he]
      exact ih grid c hwf hrest hmr

theorem restorePellets_tileAt (locs : List (ℤ × ℤ)) (grid : List (List ℕ)) (c : ℕ)
    (hwf : gridWellFormed grid) (hlocs : locsInBounds locs) (hnd : locs.Nodup)
    (x y : ℤ) (hx0 : 0 ≤ x) (hy0 : 0 ≤ y) :
    tileAt (restorePellets grid locs c).1 x y =
      if (x, y) ∈ locs ∧ tileAt grid x y = TileType.EMPTY then TileType.POWER_PELLET
      else tileAt grid x y := by
  induction locs generalizing grid c with
  | nil => simp [restorePellets]
  | cons p rest ih =>
    have hp := hlocs p (List.mem_cons_self p rest)
    have hrest : locsInBounds rest := fun q hq => hlocs q (List.mem_cons_of_mem _ hq)
    have hndr : rest.Nodup := (List.nodup_cons.mp hnd).2
    have hpnr : p ∉ rest := (List.nodup_cons.mp hnd).1
    unfold restorePellets
    by_cases hxy : (x, y) = p
    · have hx1 : x = p.1 := by rw [← hxy]
      have hy1 : y = p.2 := by rw [← hxy]
      by_cases he : tileAt grid p.1 p.2 = TileType.EMPTY
      · rw [if_pos he]
        have hwf2 := gridWellFormed_setTile grid p.1 p.2 TileType.POWER_PELLET hwf
          hp.2.2.1 hp.2.2.2
        have hnot : (x, y) ∉ rest := by rw [hxy]; exact hpnr
        rw [restorePellets_tileAt_notmem rest _ _ hwf2 hrest x y hx0 hy0 hnot]
        rw [hx1, hy1]
        rw [tileAt_setTile_self grid p.1 p.2 TileType.POWER_PELLET hwf
          hp.1 hp.2.1 hp.2.2.1 hp.2.2.2]
        rw [if_pos ⟨by rw [Prod.mk.eta]; exact List.mem_cons_self _ _, he⟩]
      · rw [if_neg he]
        have hnot : (x, y) ∉ rest := by rw [hxy]; exact hpnr
        rw [restorePellets_tileAt_notmem rest _ _ hwf hrest x y hx0 hy0 hnot]
        rw [if_neg]
        rintro ⟨_, hc⟩
        rw [hx1, hy1] at hc
        exact he hc
    · have hne : ¬(x = p.1 ∧ y = p.2) := by
        rintro ⟨h1, h2⟩
        exact hxy (by rw [h1, h2])
      have hmemiff : ((x, y) ∈ p :: rest ∧ tileAt grid x y = TileType.EMPTY)
          ↔ ((x, y) ∈ rest ∧ tileAt grid x y = TileType.EMPTY) := by
        constructor
        · rintro ⟨hm, hE⟩
          rcases List.mem_cons.mp hm with h | h
          · exact absurd h hxy
          · exact ⟨h, hE⟩
        · rintro ⟨hm, hE⟩
          exact ⟨List.mem_cons_of_mem p hm, hE⟩
      by_cases he : tileAt grid p.1 p.2 = TileType.EMPTY
      · rw [if_pos he]
        have hwf2 := gridWellFormed_setTile grid p.1 p.2 TileType.POWER_PELLET hwf
          hp.2.2.1 hp.2.2.2
        rw [ih _ _ hwf2 hrest hndr]
        have hsame : tileAt (setTile grid p.1 p.2 TileType.POWER_PELLET) x y
            = tileAt grid x y :=
          tileAt_setTile_ne grid p.1 p.2 x y TileType.POWER_PELLET hwf
            hp.1 hp.2.2.1 hp.2.2.2 hx0 hy0 hne
        rw [hsame, if_congr hmemiff.symm rfl rfl]
      · rw [if_neg he]
        rw [ih grid c hwf hrest hndr]
        rw [if_congr hmemiff.symm rfl rfl]

theorem restorePellets_countRestored (locs : List (ℤ × ℤ)) (grid : List (List ℕ)) (c : ℕ)
    (hwf : gridWellFormed grid) (hlocs : locsInBounds locs) (hnd : locs.Nodup) :
    (restorePellets grid locs c).2
      = c + locs.countP (fun p => decide (tileAt grid p.1 p.2 = TileType.EMPTY)) := by
  induction locs generalizing grid c with
  | nil => simp [restorePellets]
  | cons p rest ih =>
    have hp := hlocs p (List.mem_cons_self p rest)
    have hrest : locsInBounds rest := fun q hq => hlocs q (List.mem_cons_of_mem _ hq)
    have hndr : rest.Nodup := (List.nodup_cons.mp hnd).2
    have hpnr : p ∉ rest := (List.nodup_cons.mp hnd).1
    unfold restorePellets
    by_cases he : tileAt grid p.1 p.2 = TileType.EMPTY
    · rw [if_pos he]
      have hwf2 := gridWellFormed_setTile grid p.1 p.2 TileType.POWER_PELLET hwf
        hp.2.2.1 hp.2.2.2
      rw [ih _ _ hwf2 hrest hndr]
      have hcong : rest.countP
            (fun q => decide (tileAt (setTile grid p.1 p.2 TileType.POWER_PELLET) q.1 q.2
              = TileType.EMPTY))
          = rest.countP (fun q => decide (tileAt grid q.1 q.2 = TileType.EMPTY)) := by
        apply List.countP_congr
        intro q hq
        have hqb := hrest q hq
        have hqne : ¬(q.1 = p.1 ∧ q.2 = p.2) := by
          rintro ⟨h1, h2⟩
          exact hpnr (by
            have : q = p := Prod.ext h1 h2
            rw [← this]; exact hq)
        rw [tileAt_setTile_ne grid p.1 p.2 q.1 q.2 TileType.POWER_PELLET hwf
          hp.1 hp.2.2.1 hp.2.2.2 hqb.1 hqb.2.2.1 hqne]
      rw [hcong, List.countP_cons]
      simp [he]
      omega
    · rw [if_neg he]
      rw [ih grid c hwf hrest hndr, List.countP_cons]
      simp [he]

theorem anyAlive_map_vulnify (l : List GhostEntity) :
    (l.map fun g =>
        if g.status ≠ GhostStatus.EATEN then { g with status := GhostStatus.VULNERABLE }
        else g).any (fun g => decide (g.status ≠ GhostStatus.EATEN))
      = l.any (fun g => decide (g.status ≠ GhostStatus.EATEN)) := by
  induction l with
  | nil => rfl
  | cons a t ih =>
    simp only [List.map_cons, List.any_cons, ih]
    by_cases ha : a.status = GhostStatus.EATEN
    · simp [ha]
    · simp [ha]

theorem bestMoveFold_spec (f : Direction → ℚ) (l : List Direction) (b : Direction)
    (m : WithTop ℚ) :
    (bestMoveFold f l (b, m) = (b, m) ∧ ∀ d ∈ l, m ≤ (f d : WithTop ℚ))
    ∨ ∃ l1 r l2, l = l1 ++ r :: l2 ∧ bestMoveFold f l (b, m) = (r, (f r : WithTop ℚ))
        ∧ (f r : WithTop ℚ) < m ∧ (∀ d ∈ l1, f r < f d) ∧ (∀ d ∈ l2, f r ≤ f d) := by
  induction l generalizing b m with
  | nil =>
    left
    exact ⟨rfl, by simp⟩
  | cons d t ih =>
    have hfold : bestMoveFold f (d :: t) (b, m)
        = bestMoveFold f t
            (if (f d : WithTop ℚ) < m then (d, (f d : WithTop ℚ)) else (b, m)) := rfl
    by_cases hd : (f d : WithTop ℚ) < m
    · rw [if_pos hd] at hfold
      rcases ih d (f d : WithTop ℚ) with ⟨heq, hall⟩ | ⟨l1, r, l2, heq, hfold2, hlt, h1, h2⟩
      · right
        refine ⟨[], d, t, rfl, ?_, hd, by simp, ?_⟩
        · rw [hfold, heq]
        · intro d' hd'
          exact_mod_cast hall d' hd'
      · right
        refine ⟨d :: l1, r, l2, by rw [heq]; rfl, ?_, lt_trans hlt hd, ?_, h2⟩
        · rw [hfold, hfold2]
        · intro d' hd'
          rcases List.mem_cons.mp hd' with h | h
          · rw [h]
            exact_mod_cast hlt
          · exact h1 d' h
    · rw [if_neg hd] at hfold
      have hm : m ≤ (f d : WithTop ℚ) := le_of_not_lt hd
      rcases ih b m with ⟨heq, hall⟩ | ⟨l1, r, l2, heq, hfold2, hlt, h1, h2⟩
      · left
        refine ⟨by rw [hfold, heq], ?_⟩
        intro d' hd'
        rcases List.mem_cons.mp hd' with h | h
        · rw [h]; exact hm
        · exact hall d' h
      · right
        refine ⟨d :: l1, r, l2, by rw [heq]; rfl, by rw [hfold, hfold2], hlt, ?_, h2⟩
        intro d' hd'
        rcases List.mem_cons.mp hd' with h | h
        · rw [h]
          exact_mod_cast lt_of_lt_of_le hlt hm
        · exact h1 d' h

theorem listGetDMem {α : Type} (l : List α) (i : ℕ) (d : α) (h : i < l.length) :
    l.getD i d ∈ l := by
  rw [List.getD_eq_getElem _ _ h]
  exact List.getElem_mem h

theorem getAvailableMoves_subset (ghost : GhostEntity) (grid : List (List ℕ))
    (allowReverse : Bool) :
    ∀ d ∈ getAvailableMoves ghost grid allowReverse, d ∈ checkOrder := by
  intro d hd
  exact (List.mem_filter.mp hd).1

theorem checkOrder_ne_none : ∀ d ∈ checkOrder, d ≠ Direction.NONE := by decide

theorem jsRound_intCast (n : ℤ) : jsRound (n : ℚ) = n := by
  unfold jsRound
  rw [add_comm, Int.floor_add_int]
  norm_num

theorem jsFloor_index_lt (rnd : ℚ) (n : ℕ) (h0 : 0 ≤ rnd) (h1 : rnd < 1) (hn : 0 < n) :
    (jsFloor (rnd * n)).toNat < n := by
  unfold jsFloor
  have hnq : (0 : ℚ) < n := by exact_mod_cast hn
  have h2 : rnd * n < n := by
    calc rnd * (n : ℚ) < 1 * n := mul_lt_mul_of_pos_right h1 hnq
    _ = n := one_mul _
  have h3 : ⌊rnd * (n : ℚ)⌋ < (n : ℤ) := Int.floor_lt.mpr (by exact_mod_cast h2)
  have h4 : (0 : ℤ) ≤ ⌊rnd * (n : ℚ)⌋ :=
    Int.floor_nonneg.mpr (mul_nonneg h0 (le_of_lt hnq))
  omega

/-- C3, counterexample: the claim says an entity at exactly x = -0.5 is repositioned to
W - 0.5 (and one at exactly W - 0.5 to -0.5), but the source wraps only on strict
inequality, so at exactly -0.5 and exactly W - 0.5 the position is left unchanged. -/
theorem c3_tunnel_counterexample :
    tunnelWrapX (-(1/2)) = -(1/2)
    ∧ ((-(1/2) : ℚ) ≠ (MAP_WIDTH : ℚ) - 1/2)
    ∧ tunnelWrapX ((MAP_WIDTH : ℚ) - 1/2) = (MAP_WIDTH : ℚ) - 1/2
    ∧ ((MAP_WIDTH : ℚ) - 1/2 ≠ -(1/2)) := by
  have hW : ¬ ((MAP_WIDTH : ℚ) - 1/2 < -(1/2)) := by rw [MAP_WIDTH_eq]; norm_num
  refine ⟨?_, ?_, ?_, ?_⟩
  · simp only [tunnelWrapX, if_neg (lt_irrefl (-(1/2) : ℚ))]
    rw [if_neg hW]
  · rw [MAP_WIDTH_eq]; norm_num
  · simp only [tunnelWrapX, if_neg hW]
    rw [if_neg (lt_irrefl _)]
  · rw [MAP_WIDTH_eq]; norm_num

/-- C3, amended: after a tick's movement phase an entity with x strictly below -0.5 is
repositioned to W - 0.5, one with x strictly above W - 0.5 is repositioned to -0.5, and
a position in the closed interval [-0.5, W - 0.5] — the exact endpoints included — is
left unchanged; the same wrap is applied to the player and to every adversary. -/
theorem c3_tunnel_amended (x : ℚ) :
    (x < -(1/2) → tunnelWrapX x = (MAP_WIDTH : ℚ) - 1/2)
    ∧ ((MAP_WIDTH : ℚ) - 1/2 < x → tunnelWrapX x = -(1/2))
    ∧ (-(1/2) ≤ x → x ≤ (MAP_WIDTH : ℚ) - 1/2 → tunnelWrapX x = x) := by
  have hW : (-(1/2) : ℚ) < (MAP_WIDTH : ℚ) - 1/2 := by
    rw [MAP_WIDTH_eq]; norm_num
  refine ⟨?_, ?_, ?_⟩
  · intro h
    simp only [tunnelWrapX]
    rw [if_pos h, if_neg (lt_irrefl _)]
  · intro h
    have hx : ¬ x < -(1/2) := by linarith
    simp only [tunnelWrapX]
    rw [if_neg hx, if_pos h]
  · intro h1 h2
    simp only [tunnelWrapX]
    rw [if_neg (not_lt.mpr h1), if_neg (not_lt.mpr h2)]

theorem c3_tunnel_amended_witness :
    tunnelWrapX (-1) = (MAP_WIDTH : ℚ) - 1/2 ∧ tunnelWrapX 19 = -(1/2) :=
  ⟨(c3_tunnel_amended (-1)).1 (by norm_num),
   (c3_tunnel_amended 19).2.1 (by rw [MAP_WIDTH_eq]; norm_num)⟩

/-- C8: while the status is ROUND_STARTING or RESPAWNING a tick only decrements the
pause countdown by the elapsed delta — grid, score, lives, pellet count, Pac-Man and
every ghost are unchanged — and once the countdown is zero or below the status becomes
PLAYING (otherwise it stays what it was). -/
theorem c8_pause_tick (st : GameState) (delta : ℚ)
    (_h : st.status = InternalGameStatus.ROUND_STARTING
       ∨ st.status = InternalGameStatus.RESPAWNING) :
    (pauseTick st delta).grid = st.grid
    ∧ (pauseTick st delta).score = st.score
    ∧ (pauseTick st delta).lives = st.lives
    ∧ (pauseTick st delta).pelletsRemaining = st.pelletsRemaining
    ∧ (pauseTick st delta).pacman = st.pacman
    ∧ (pauseTick st delta).ghosts = st.ghosts
    ∧ (pauseTick st delta).round = st.round
    ∧ (pauseTick st delta).pauseTimer = st.pauseTimer - delta
    ∧ (st.pauseTimer - delta ≤ 0 →
        (pauseTick st delta).status = InternalGameStatus.PLAYING)
    ∧ (0 < st.pauseTimer - delta → (pauseTick st delta).status = st.status) := by
  simp only [pauseTick]
  by_cases ht : st.pauseTimer - delta ≤ 0
  · rw [if_pos ht]
    exact ⟨rfl, rfl, rfl, rfl, rfl, rfl, rfl, rfl, fun _ => rfl,
      fun hc => absurd ht (not_le.mpr hc)⟩
  · rw [if_neg ht]
    exact ⟨rfl, rfl, rfl, rfl, rfl, rfl, rfl, rfl, fun hc => absurd hc ht, fun _ => rfl⟩

theorem c8_pause_tick_witness :
    (pauseTick { baseState with
        status := InternalGameStatus.ROUND_STARTING, pauseTimer := 1000 } 1500).status
      = InternalGameStatus.PLAYING :=
  (c8_pause_tick { baseState with
      status := InternalGameStatus.ROUND_STARTING, pauseTimer := 1000 } 1500
    (Or.inl rfl)).2.2.2.2.2.2.2.2.1 (by norm_num)

/-- C7: a death with no lives remaining enters LEVEL_TRANSITION; on round 1 the run
ends — the final score persisted exactly once (one saveScore append) and onGameOver
invoked with it, score unchanged; on a later round lives are restored to 3 and the game
restarts at round 1 (status ROUND_STARTING via initRound) with the score unchanged and
nothing persisted. -/
theorem c7_demotion_or_game_over (st : GameState) (h : st.lives ≤ 1) :
    (st.round = 1 →
      (handleDeath st).status = InternalGameStatus.LEVEL_TRANSITION
      ∧ (handleDeath st).savedScores = st.savedScores ++ [st.score]
      ∧ (handleDeath st).gameOverCalled = some st.score
      ∧ (handleDeath st).score = st.score)
    ∧ (st.round ≠ 1 →
      (handleDeath st).lives = 3
      ∧ (handleDeath st).round = 1
      ∧ (handleDeath st).score = st.score
      ∧ (handleDeath st).status = InternalGameStatus.ROUND_STARTING
      ∧ (handleDeath st).savedScores = st.savedScores
      ∧ (handleDeath st).gameOverCalled = st.gameOverCalled) := by
  have hl : st.lives - 1 ≤ 0 := by omega
  constructor
  · intro hr
    simp [handleDeath, handleDemotionOrGameOver, hl, hr]
  · intro hr
    simp [handleDeath, handleDemotionOrGameOver, initRound, hl, hr]

theorem c7_demotion_or_game_over_witness :
    (handleDeath { baseState with round := 2, lives := 1, score := 430 }).lives = 3
    ∧ (handleDeath { baseState with round := 2, lives := 1, score := 430 }).round = 1
    ∧ (handleDeath { baseState with round := 2, lives := 1, score := 430 }).score = 430 := by
  have h := (c7_demotion_or_game_over
    { baseState with round := 2, lives := 1, score := 430 } (by norm_num)).2
    (by norm_num)
  exact ⟨h.1, h.2.1, h.2.2.1⟩

theorem DIRECTIONS_dirStep (d : Direction) :
    (DIRECTIONS d).x = ((dirStep d).1 : ℚ) ∧ (DIRECTIONS d).y = ((dirStep d).2 : ℚ) := by
  cases d <;> constructor <;> norm_num [DIRECTIONS, dirStep]

/-- C2, counterexample: walkability is not "false only for WALL" in the player's check.
The tile at (9, 8) of INITIAL_MAP is the GHOST_SPAWN marker — not a WALL — yet the
player's move-validity check isValidMove rejects moving UP from (9, 9) onto it, while
the adversaries' getAvailableMoves admits the same move. -/
theorem c2_walkability_counterexample :
    tileAt INITIAL_MAP 9 8 = TileType.GHOST_SPAWN
    ∧ TileType.GHOST_SPAWN ≠ TileType.WALL
    ∧ isValidMove INITIAL_MAP 9 9 Direction.UP = false
    ∧ Direction.UP ∈ getAvailableMoves ghostB INITIAL_MAP false := by
  refine ⟨by decide, by decide, ?_, ?_⟩
  · have hx : jsRound ((9 : ℚ) + (DIRECTIONS Direction.UP).x) = 9 := by
      norm_num [jsRound, DIRECTIONS]
    have hy : jsRound ((9 : ℚ) + (DIRECTIONS Direction.UP).y) = 8 := by
      norm_num [jsRound, DIRECTIONS]
    simp only [isValidMove, hx, hy]
    decide
  · have hgx : jsRound ghostB.pos.x = 9 := by norm_num [ghostB, jsRound]
    have hgy : jsRound ghostB.pos.y = 9 := by norm_num [ghostB, jsRound]
    simp only [getAvailableMoves, hgx, hgy]
    decide

/-- C2, amended: for an in-bounds destination tile reached by a non-reverse candidate
direction, the adversaries' available-move computation treats every non-WALL tile — the
GHOST_SPAWN marker included — as walkable, while the player's move-validity check
additionally rejects GHOST_SPAWN: it accepts exactly the tiles that are neither WALL
nor GHOST_SPAWN. -/
theorem c2_walkability_amended (grid : List (List ℕ)) (g : GhostEntity) (dir : Direction)
    (gx gy : ℤ)
    (hpos : g.pos = ⟨(gx : ℚ), (gy : ℚ)⟩)
    (hdir : dir ∈ checkOrder)
    (hrev : dir ≠ getOppositeDirection g.direction)
    (hx : 0 ≤ gx + (dirStep dir).1 ∧ gx + (dirStep dir).1 < (MAP_WIDTH : ℤ))
    (hy : 0 ≤ gy + (dirStep dir).2 ∧ gy + (dirStep dir).2 < (MAP_HEIGHT : ℤ)) :
    (dir ∈ getAvailableMoves g grid false
      ↔ tileAt grid (gx + (dirStep dir).1) (gy + (dirStep dir).2) ≠ TileType.WALL)
    ∧ (isValidMove grid g.pos.x g.pos.y dir = true
      ↔ (tileAt grid (gx + (dirStep dir).1) (gy + (dirStep dir).2) ≠ TileType.WALL
         ∧ tileAt grid (gx + (dirStep dir).1) (gy + (dirStep dir).2)
             ≠ TileType.GHOST_SPAWN)) := by
  have hroundx : jsRound g.pos.x = gx := by rw [hpos]; exact jsRound_intCast gx
  have hroundy : jsRound g.pos.y = gy := by rw [hpos]; exact jsRound_intCast gy
  have hbe : (dir == getOppositeDirection g.direction) = false := by
    simp [hrev]
  constructor
  · simp only [getAvailableMoves, List.mem_filter, hroundx, hroundy]
    rw [Bool.not_false, Bool.true_and, hbe]
    simp only [Bool.false_eq_true, if_false]
    rw [if_pos ⟨hy.1, hy.2, hx.1, hx.2⟩]
    simp [hdir]
  · have hdx : g.pos.x + (DIRECTIONS dir).x = ((gx + (dirStep dir).1 : ℤ) : ℚ) := by
      rw [hpos, (DIRECTIONS_dirStep dir).1]
      push_cast
      ring
    have hdy : g.pos.y + (DIRECTIONS dir).y = ((gy + (dirStep dir).2 : ℤ) : ℚ) := by
      rw [hpos, (DIRECTIONS_dirStep dir).2]
      push_cast
      ring
    simp only [isValidMove, hdx, hdy, jsRound_intCast]
    rw [if_neg (by omega : ¬(gx + (dirStep dir).1 < 0))]
    rw [if_neg (by omega : ¬((MAP_WIDTH : ℤ) ≤ gx + (dirStep dir).1))]
    rw [if_neg (by omega : ¬(gy + (dirStep dir).2 < 0 ∨ (MAP_HEIGHT : ℤ) ≤ gy + (dirStep dir).2))]
    simp

theorem c2_walkability_amended_witness :
    (Direction.UP ∈ getAvailableMoves ghostB INITIAL_MAP false)
    ∧ isValidMove INITIAL_MAP ghostB.pos.x ghostB.pos.y Direction.UP = false := by
  have h := c2_walkability_amended INITIAL_MAP ghostB Direction.UP 9 9 (by norm_num [ghostB])
    (by decide) (by decide) (by decide) (by decide)
  constructor
  · exact h.1.mpr (by decide)
  · rw [Bool.eq_false_iff]
    intro ht
    exact (by decide :
      ¬(tileAt INITIAL_MAP (9 + (dirStep Direction.UP).1) (9 + (dirStep Direction.UP).2)
          ≠ TileType.WALL
        ∧ tileAt INITIAL_MAP (9 + (dirStep Direction.UP).1) (9 + (dirStep Direction.UP).2)
          ≠ TileType.GHOST_SPAWN)) (h.2.mp ht)

theorem eatPellets_eq_powerPellet (st : GameState) (time : ℚ)
    (hy0 : 0 ≤ jsRound st.pacman.pos.y) (hyh : jsRound st.pacman.pos.y < (MAP_HEIGHT : ℤ))
    (hx0 : 0 ≤ jsRound st.pacman.pos.x) (hxw : jsRound st.pacman.pos.x < (MAP_WIDTH : ℤ))
    (hp : tileAt st.grid (jsRound st.pacman.pos.x) (jsRound st.pacman.pos.y)
        = TileType.POWER_PELLET) :
    eatPellets st time
      = eatPowerPellet st time (jsRound st.pacman.pos.x) (jsRound st.pacman.pos.y) := by
  simp only [eatPellets]
  rw [if_pos ⟨hy0, hyh, hx0, hxw⟩, if_neg (by rw [hp]; decide), if_pos hp]

theorem eatPellets_eq_pellet (st : GameState) (time : ℚ)
    (hy0 : 0 ≤ jsRound st.pacman.pos.y) (hyh : jsRound st.pacman.pos.y < (MAP_HEIGHT : ℤ))
    (hx0 : 0 ≤ jsRound st.pacman.pos.x) (hxw : jsRound st.pacman.pos.x < (MAP_WIDTH : ℤ))
    (hp : tileAt st.grid (jsRound st.pacman.pos.x) (jsRound st.pacman.pos.y)
        = TileType.PELLET) :
    eatPellets st time
      = { st with
          score := st.score + 10
          grid := setTile st.grid (jsRound st.pacman.pos.x) (jsRound st.pacman.pos.y)
            TileType.EMPTY
          pelletsRemaining := st.pelletsRemaining - 1 } := by
  simp only [eatPellets]
  rw [if_pos ⟨hy0, hyh, hx0, hxw⟩, if_pos hp]

theorem eatPellets_eq_other (st : GameState) (time : ℚ)
    (hp1 : tileAt st.grid (jsRound st.pacman.pos.x) (jsRound st.pacman.pos.y)
        ≠ TileType.PELLET)
    (hp2 : tileAt st.grid (jsRound st.pacman.pos.x) (jsRound st.pacman.pos.y)
        ≠ TileType.POWER_PELLET) :
    eatPellets st time = st := by
  simp only [eatPellets]
  by_cases hb : 0 ≤ jsRound st.pacman.pos.y ∧ jsRound st.pacman.pos.y < (MAP_HEIGHT : ℤ)
      ∧ 0 ≤ jsRound st.pacman.pos.x ∧ jsRound st.pacman.pos.x < (MAP_WIDTH : ℤ)
  · rw [if_pos hb, if_neg hp1, if_neg hp2]
  · rw [if_neg hb]

theorem eatPellets_oob (st : GameState) (time : ℚ)
    (hb : ¬(0 ≤ jsRound st.pacman.pos.y ∧ jsRound st.pacman.pos.y < (MAP_HEIGHT : ℤ)
      ∧ 0 ≤ jsRound st.pacman.pos.x ∧ jsRound st.pacman.pos.x < (MAP_WIDTH : ℤ))) :
    eatPellets st time = st := by
  simp only [eatPellets]
  rw [if_neg hb]

theorem eatPowerPellet_fields (st : GameState) (time : ℚ) (pX pY : ℤ) :
    (eatPowerPellet st time pX pY).ghosts
      = st.ghosts.map (fun g =>
          if g.status ≠ GhostStatus.EATEN then { g with status := GhostStatus.VULNERABLE }
          else g)
    ∧ (eatPowerPellet st time pX pY).vulnerableUntil = time + VULNERABLE_DURATION_MS
    ∧ (eatPowerPellet st time pX pY).ghostsEatenStreak = 0
    ∧ (eatPowerPellet st time pX pY).score = st.score + 50
    ∧ (eatPowerPellet st time pX pY).lives = st.lives
    ∧ (eatPowerPellet st time pX pY).powerPelletLocations = st.powerPelletLocations := by
  simp only [eatPowerPellet]
  split_ifs <;> exact ⟨rfl, rfl, rfl, rfl, rfl, rfl⟩

theorem getD_map_ghost (f : GhostEntity → GhostEntity) (hf : f defaultGhost = defaultGhost)
    (l : List GhostEntity) (i : ℕ) :
    (l.map f).getD i defaultGhost = f (l.getD i defaultGhost) := by
  have h := List.getD_map l defaultGhost f (n := i)
  rw [hf] at h
  exact h

/-- C4: consuming a power pellet at time T makes, in the same tick, every adversary
that is not EATEN become VULNERABLE and leaves EATEN adversaries untouched, setting the
global threshold to T plus the duration; when the threshold has elapsed, in one tick
every still-VULNERABLE adversary reverts to NORMAL, every other adversary (EATEN
included) is unchanged, and the capture streak resets to 0. -/
theorem c4_vulnerability_sync (st : GameState) (time : ℚ) (i : ℕ)
    (hy0 : 0 ≤ jsRound st.pacman.pos.y) (hyh : jsRound st.pacman.pos.y < (MAP_HEIGHT : ℤ))
    (hx0 : 0 ≤ jsRound st.pacman.pos.x) (hxw : jsRound st.pacman.pos.x < (MAP_WIDTH : ℤ))
    (hp : tileAt st.grid (jsRound st.pacman.pos.x) (jsRound st.pacman.pos.y)
        = TileType.POWER_PELLET) :
    ((st.ghosts.getD i defaultGhost).status ≠ GhostStatus.EATEN →
      ((eatPellets st time).ghosts.getD i defaultGhost).status = GhostStatus.VULNERABLE)
    ∧ ((st.ghosts.getD i defaultGhost).status = GhostStatus.EATEN →
      (eatPellets st time).ghosts.getD i defaultGhost = st.ghosts.getD i defaultGhost)
    ∧ (eatPellets st time).vulnerableUntil = time + VULNERABLE_DURATION_MS
    ∧ (∀ st2 : GameState, ∀ j : ℕ, 0 < st2.vulnerableUntil → st2.vulnerableUntil < time →
        (((st2.ghosts.getD j defaultGhost).status = GhostStatus.VULNERABLE →
          (vulnerabilityExpiry st2 time).ghosts.getD j defaultGhost
            = { st2.ghosts.getD j defaultGhost with status := GhostStatus.NORMAL })
        ∧ ((st2.ghosts.getD j defaultGhost).status ≠ GhostStatus.VULNERABLE →
          (vulnerabilityExpiry st2 time).ghosts.getD j defaultGhost
            = st2.ghosts.getD j defaultGhost)
        ∧ (vulnerabilityExpiry st2 time).ghostsEatenStreak = 0)) := by
  have heat := eatPellets_eq_powerPellet st time hy0 hyh hx0 hxw hp
  have hfields := eatPowerPellet_fields st time (jsRound st.pacman.pos.x)
    (jsRound st.pacman.pos.y)
  have hmap := getD_map_ghost
    (fun g => if g.status ≠ GhostStatus.EATEN then { g with status := GhostStatus.VULNERABLE }
      else g) rfl st.ghosts i
  refine ⟨?_, ?_, ?_, ?_⟩
  · intro hne
    rw [heat, hfields.1, hmap, if_pos hne]
  · intro heq
    rw [heat, hfields.1, hmap, if_neg (fun hn => hn heq)]
  · rw [heat]
    exact hfields.2.1
  · intro st2 j h1 h2
    have hexp : vulnerabilityExpiry st2 time
        = { st2 with
            vulnerableUntil := 0
            ghostsEatenStreak := 0
            ghosts := st2.ghosts.map fun g =>
              if g.status = GhostStatus.VULNERABLE then { g with status := GhostStatus.NORMAL }
              else g } := by
      simp only [vulnerabilityExpiry]
      rw [if_pos ⟨h1, h2⟩]
    have hmap2 := getD_map_ghost
      (fun g => if g.status = GhostStatus.VULNERABLE then { g with status := GhostStatus.NORMAL }
        else g) rfl st2.ghosts j
    refine ⟨?_, ?_, ?_⟩
    · intro hv
      rw [hexp]
      show (st2.ghosts.map _).getD j defaultGhost = _
      rw [hmap2, if_pos hv]
    · intro hv
      rw [hexp]
      show (st2.ghosts.map _).getD j defaultGhost = _
      rw [hmap2, if_neg hv]
    · rw [hexp]

theorem c4_vulnerability_sync_witness :
    ((eatPellets c4state 500).ghosts.getD 0 defaultGhost).status
      = GhostStatus.VULNERABLE := by
  have hx : jsRound c4state.pacman.pos.x = 1 := by
    norm_num [c4state, pac11, jsRound]
  have hy : jsRound c4state.pacman.pos.y = 1 := by
    norm_num [c4state, pac11, jsRound]
  have h := c4_vulnerability_sync c4state 500 0
    (by rw [hy]; decide) (by rw [hy]; decide) (by rw [hx]; decide) (by rw [hx]; decide)
    (by rw [hx, hy]; decide)
  exact h.1 (by decide)

/-- C5: when the n-th consecutive capture of a vulnerability window happens (streak
n-1 before the hit, ghost VULNERABLE, within the collision distance), exactly
200 · 2^(n-1) points are awarded and the streak becomes n, with no upper bound on the
exponent; the streak is reset to 0 by every power-pellet consumption and by every
vulnerability-timer expiry. -/
theorem c5_capture_streak_scoring (st : GameState) (i : ℕ) (time : ℚ) (n : ℕ)
    (hn : 1 ≤ n) (hstreak : st.ghostsEatenStreak = n - 1)
    (hs : (st.ghosts.getD i defaultGhost).status = GhostStatus.VULNERABLE)
    (hd : ((st.ghosts.getD i defaultGhost).pos.x - st.pacman.pos.x)
            * ((st.ghosts.getD i defaultGhost).pos.x - st.pacman.pos.x)
        + ((st.ghosts.getD i defaultGhost).pos.y - st.pacman.pos.y)
            * ((st.ghosts.getD i defaultGhost).pos.y - st.pacman.pos.y) < 1/4) :
    (collisionStep st i time).score = st.score + 200 * 2 ^ (n - 1)
    ∧ (collisionStep st i time).ghostsEatenStreak = n
    ∧ (∀ st2 : GameState, ∀ t2 : ℚ,
        0 ≤ jsRound st2.pacman.pos.y → jsRound st2.pacman.pos.y < (MAP_HEIGHT : ℤ) →
        0 ≤ jsRound st2.pacman.pos.x → jsRound st2.pacman.pos.x < (MAP_WIDTH : ℤ) →
        tileAt st2.grid (jsRound st2.pacman.pos.x) (jsRound st2.pacman.pos.y)
          = TileType.POWER_PELLET →
        (eatPellets st2 t2).ghostsEatenStreak = 0)
    ∧ (∀ st2 : GameState, ∀ t2 : ℚ, 0 < st2.vulnerableUntil → st2.vulnerableUntil < t2 →
        (vulnerabilityExpiry st2 t2).ghostsEatenStreak = 0) := by
  have hne : ¬((st.ghosts.getD i defaultGhost).status = GhostStatus.EATEN) := by
    rw [hs]; decide
  have hcol : collisionStep st i time
      = { st with
          ghosts := st.ghosts.set i
            { st.ghosts.getD i defaultGhost with status := GhostStatus.EATEN }
          ghostsEatenStreak := st.ghostsEatenStreak + 1
          score := st.score + 200 * 2 ^ (st.ghostsEatenStreak + 1 - 1) } := by
    simp only [collisionStep]
    rw [if_neg hne, if_pos hd, if_pos hs]
  refine ⟨?_, ?_, ?_, ?_⟩
  · rw [hcol]
    show st.score + 200 * 2 ^ (st.ghostsEatenStreak + 1 - 1) = st.score + 200 * 2 ^ (n - 1)
    rw [hstreak]
    congr 1
  · rw [hcol]
    show st.ghostsEatenStreak + 1 = n
    omega
  · intro st2 t2 hy0 hyh hx0 hxw hp
    rw [eatPellets_eq_powerPellet st2 t2 hy0 hyh hx0 hxw hp]
    exact (eatPowerPellet_fields st2 t2 _ _).2.2.1
  · intro st2 t2 h1 h2
    simp only [vulnerabilityExpiry]
    rw [if_pos ⟨h1, h2⟩]

theorem c5_capture_streak_scoring_witness :
    (collisionStep c5state 0 700).score = 200
    ∧ (collisionStep c5state 0 700).ghostsEatenStreak = 1 := by
  have h := c5_capture_streak_scoring c5state 0 700 1 (by decide) rfl (by decide)
    (by
      show ((9 : ℚ) - 9) * ((9 : ℚ) - 9) + ((10 : ℚ) - 10) * ((10 : ℚ) - 10) < 1/4
      norm_num)
  refine ⟨?_, h.2.1⟩
  rw [h.1]
  decide

/-- C10: for an adversary whose current direction is cardinal, the decision function
never returns NONE, and its result is either one of the available non-reverse moves or,
when that set is empty, exactly the reverse of the current direction — in VULNERABLE
mode (any random draw in the unit interval) and in normal mode alike. -/
theorem c10_decision_totality (ghost : GhostEntity) (pacmanPos : Position)
    (pacmanDir : Direction) (blinkyPos : Position) (grid : List (List ℕ)) (round : ℕ)
    (rnd : ℚ) (hdir : ghost.direction ≠ Direction.NONE) (h0 : 0 ≤ rnd) (h1 : rnd < 1) :
    getNextGhostDirection ghost pacmanPos pacmanDir blinkyPos grid round rnd
      ≠ Direction.NONE
    ∧ (getNextGhostDirection ghost pacmanPos pacmanDir blinkyPos grid round rnd
        ∈ getAvailableMoves ghost grid false
      ∨ (getAvailableMoves ghost grid false = []
        ∧ getNextGhostDirection ghost pacmanPos pacmanDir blinkyPos grid round rnd
            = getOppositeDirection ghost.direction)) := by
  have hopp : getOppositeDirection ghost.direction ≠ Direction.NONE := by
    cases hdg : ghost.direction <;> simp [getOppositeDirection]
    exact hdir hdg
  have hmemne : ∀ d ∈ getAvailableMoves ghost grid false, d ≠ Direction.NONE :=
    fun d hd => checkOrder_ne_none d (getAvailableMoves_subset ghost grid false d hd)
  simp only [getNextGhostDirection]
  by_cases hv : ghost.status = GhostStatus.VULNERABLE
  · rw [if_pos hv]
    by_cases hlen : 0 < (getAvailableMoves ghost grid false).length
    · rw [if_pos hlen]
      have hidx := jsFloor_index_lt rnd (getAvailableMoves ghost grid false).length h0 h1 hlen
      have hmem : (getAvailableMoves ghost grid false).getD
          (jsFloor (rnd * (getAvailableMoves ghost grid false).length)).toNat
          Direction.NONE ∈ getAvailableMoves ghost grid false :=
        listGetDMem _ _ _ hidx
      exact ⟨hmemne _ hmem, Or.inl hmem⟩
    · rw [if_neg hlen]
      have hnil : getAvailableMoves ghost grid false = [] :=
        List.length_eq_zero.mp (by omega)
      exact ⟨hopp, Or.inr ⟨hnil, rfl⟩⟩
  · rw [if_neg hv]
    by_cases h0l : (getAvailableMoves ghost grid false).length = 0
    · rw [if_pos h0l]
      exact ⟨hopp, Or.inr ⟨List.length_eq_zero.mp h0l, rfl⟩⟩
    · rw [if_neg h0l]
      by_cases h1l : (getAvailableMoves ghost grid false).length = 1
      · rw [if_pos h1l]
        have hmem : (getAvailableMoves ghost grid false).getD 0 Direction.NONE
            ∈ getAvailableMoves ghost grid false := listGetDMem _ _ _ (by omega)
        exact ⟨hmemne _ hmem, Or.inl hmem⟩
      · rw [if_neg h1l]
        rcases bestMoveFold_spec
            (fun dir => getDistance (getNextTile ghost.pos dir)
              (getTargetPosition ghost pacmanPos pacmanDir blinkyPos round))
            (getAvailableMoves ghost grid false)
            ((getAvailableMoves ghost grid false).headD Direction.NONE)
            (⊤ : WithTop ℚ) with
          h | h
        · exfalso
          have hmem0 : (getAvailableMoves ghost grid false).getD 0 Direction.NONE
              ∈ getAvailableMoves ghost grid false := listGetDMem _ _ _ (by omega)
          exact absurd (h.2 _ hmem0) (not_le.mpr (WithTop.coe_lt_top _))
        · obtain ⟨l1, r, l2, heq, hfold, _, _, _⟩ := h
          rw [hfold]
          have hrm : r ∈ getAvailableMoves ghost grid false := by
            rw [heq]
            exact List.mem_append_right _ (List.mem_cons_self _ _)
          exact ⟨hmemne _ hrm, Or.inl hrm⟩

theorem c10_decision_totality_witness :
    getNextGhostDirection ghostA ⟨9, 10⟩ Direction.RIGHT ⟨9, 8⟩ INITIAL_MAP 1 (1/2)
      ≠ Direction.NONE
    ∧ (getNextGhostDirection ghostA ⟨9, 10⟩ Direction.RIGHT ⟨9, 8⟩ INITIAL_MAP 1 (1/2)
        ∈ getAvailableMoves ghostA INITIAL_MAP false
      ∨ (getAvailableMoves ghostA INITIAL_MAP false = []
        ∧ getNextGhostDirection ghostA ⟨9, 10⟩ Direction.RIGHT ⟨9, 8⟩ INITIAL_MAP 1 (1/2)
            = getOppositeDirection ghostA.direction)) :=
  c10_decision_totality ghostA ⟨9, 10⟩ Direction.RIGHT ⟨9, 8⟩ INITIAL_MAP 1 (1/2)
    (by decide) (by norm_num) (by norm_num)

/-- C6: for a non-VULNERABLE adversary at an intersection (at least two available
non-reverse moves), the available moves are listed in the fixed UP, LEFT, DOWN, RIGHT
evaluation order (a sublist of checkOrder), and the chosen direction splits that list
so that every earlier candidate has strictly greater Manhattan distance from its
resulting tile to the target and every later candidate has greater-or-equal distance:
the first minimal candidate wins. -/
theorem c6_intersection_first_minimal (ghost : GhostEntity) (pacmanPos : Position)
    (pacmanDir : Direction) (blinkyPos : Position) (grid : List (List ℕ)) (round : ℕ)
    (rnd : ℚ) (hv : ghost.status ≠ GhostStatus.VULNERABLE)
    (hlen : 2 ≤ (getAvailableMoves ghost grid false).length) :
    (getAvailableMoves ghost grid false).Sublist checkOrder
    ∧ ∃ l1 l2,
        getAvailableMoves ghost grid false
          = l1 ++ getNextGhostDirection ghost pacmanPos pacmanDir blinkyPos grid round rnd
              :: l2
        ∧ (∀ d ∈ l1,
            getDistance
                (getNextTile ghost.pos
                  (getNextGhostDirection ghost pacmanPos pacmanDir blinkyPos grid round rnd))
                (getTargetPosition ghost pacmanPos pacmanDir blinkyPos round)
              < getDistance (getNextTile ghost.pos d)
                  (getTargetPosition ghost pacmanPos pacmanDir blinkyPos round))
        ∧ (∀ d ∈ l2,
            getDistance
                (getNextTile ghost.pos
                  (getNextGhostDirection ghost pacmanPos pacmanDir blinkyPos grid round rnd))
                (getTargetPosition ghost pacmanPos pacmanDir blinkyPos round)
              ≤ getDistance (getNextTile ghost.pos d)
                  (getTargetPosition ghost pacmanPos pacmanDir blinkyPos round)) := by
  refine ⟨List.filter_sublist _, ?_⟩
  have hnext : getNextGhostDirection ghost pacmanPos pacmanDir blinkyPos grid round rnd
      = (bestMoveFold
          (fun dir => getDistance (getNextTile ghost.pos dir)
            (getTargetPosition ghost pacmanPos pacmanDir blinkyPos round))
          (getAvailableMoves ghost grid false)
          ((getAvailableMoves ghost grid false).headD Direction.NONE,
            (⊤ : WithTop ℚ))).1 := by
    simp only [getNextGhostDirection]
    rw [if_neg hv, if_neg (by omega), if_neg (by omega)]
  rcases bestMoveFold_spec
      (fun dir => getDistance (getNextTile ghost.pos dir)
        (getTargetPosition ghost pacmanPos pacmanDir blinkyPos round))
      (getAvailableMoves ghost grid false)
      ((getAvailableMoves ghost grid false).headD Direction.NONE)
      (⊤ : WithTop ℚ) with
    h | h
  · exfalso
    have hmem0 : (getAvailableMoves ghost grid false).getD 0 Direction.NONE
        ∈ getAvailableMoves ghost grid false := listGetDMem _ _ _ (by omega)
    exact absurd (h.2 _ hmem0) (not_le.mpr (WithTop.coe_lt_top _))
  · obtain ⟨l1, r, l2, heq, hfold, _, hl1, hl2⟩ := h
    refine ⟨l1, l2, ?_, ?_, ?_⟩
    · rw [hnext, hfold]
      exact heq
    · intro d hd
      rw [hnext, hfold]
      exact hl1 d hd
    · intro d hd
      rw [hnext, hfold]
      exact hl2 d hd

theorem c6_intersection_first_minimal_witness :
    2 ≤ (getAvailableMoves ghostA INITIAL_MAP false).length
    ∧ ((getAvailableMoves ghostA INITIAL_MAP false).Sublist checkOrder
      ∧ ∃ l1 l2,
          getAvailableMoves ghostA INITIAL_MAP false
            = l1 ++ getNextGhostDirection ghostA ⟨9, 10⟩ Direction.RIGHT ⟨9, 8⟩
                INITIAL_MAP 1 0 :: l2
          ∧ (∀ d ∈ l1,
              getDistance
                  (getNextTile ghostA.pos
                    (getNextGhostDirection ghostA ⟨9, 10⟩ Direction.RIGHT ⟨9, 8⟩
                      INITIAL_MAP 1 0))
                  (getTargetPosition ghostA ⟨9, 10⟩ Direction.RIGHT ⟨9, 8⟩ 1)
                < getDistance (getNextTile ghostA.pos d)
                    (getTargetPosition ghostA ⟨9, 10⟩ Direction.RIGHT ⟨9, 8⟩ 1))
          ∧ (∀ d ∈ l2,
              getDistance
                  (getNextTile ghostA.pos
                    (getNextGhostDirection ghostA ⟨9, 10⟩ Direction.RIGHT ⟨9, 8⟩
                      INITIAL_MAP 1 0))
                  (getTargetPosition ghostA ⟨9, 10⟩ Direction.RIGHT ⟨9, 8⟩ 1)
                ≤ getDistance (getNextTile ghostA.pos d)
                    (getTargetPosition ghostA ⟨9, 10⟩ Direction.RIGHT ⟨9, 8⟩ 1))) := by
  have hgx : jsRound ghostA.pos.x = 4 := by norm_num [ghostA, jsRound]
  have hgy : jsRound ghostA.pos.y = 4 := by norm_num [ghostA, jsRound]
  have hmoves : getAvailableMoves ghostA INITIAL_MAP false
      = [Direction.LEFT, Direction.DOWN, Direction.RIGHT] := by
    simp only [getAvailableMoves, hgx, hgy]
    decide
  have hlen : 2 ≤ (getAvailableMoves ghostA INITIAL_MAP false).length := by
    rw [hmoves]; decide
  exact ⟨hlen, c6_intersection_first_minimal ghostA ⟨9, 10⟩ Direction.RIGHT ⟨9, 8⟩
    INITIAL_MAP 1 0 (by decide) hlen⟩

/-- C1: the pellets-remaining counter always equals the exact number of PELLET and
POWER_PELLET tiles in the live grid — initRound establishes the equality and one
pellet-phase step at any position preserves it through consumption and power-pellet
respawn alike — and the round-complete dispatch fires exactly when the counter, hence
the number of pellet tiles, is 0. -/
theorem c1_pellet_invariant (st : GameState) (time : ℚ)
    (hwf : gridWellFormed st.grid)
    (hlocs : locsInBounds st.powerPelletLocations)
    (hinv : st.pelletsRemaining = (countPellets st.grid : ℤ)) :
    (eatPellets st time).pelletsRemaining = (countPellets (eatPellets st time).grid : ℤ)
    ∧ gridWellFormed (eatPellets st time).grid
    ∧ ((pelletPhase st time).2 = true ↔ countPellets (eatPellets st time).grid = 0)
    ∧ (∀ r : ℕ, ∀ ks : Bool, ∀ s0 : GameState,
        (initRound r ks s0).pelletsRemaining
          = (countPellets (initRound r ks s0).grid : ℤ)) := by
  have hmain : (eatPellets st time).pelletsRemaining
      = (countPellets (eatPellets st time).grid : ℤ)
      ∧ gridWellFormed (eatPellets st time).grid := by
    by_cases hb : 0 ≤ jsRound st.pacman.pos.y ∧ jsRound st.pacman.pos.y < (MAP_HEIGHT : ℤ)
        ∧ 0 ≤ jsRound st.pacman.pos.x ∧ jsRound st.pacman.pos.x < (MAP_WIDTH : ℤ)
    · obtain ⟨hy0, hyh, hx0, hxw⟩ := hb
      by_cases hp : tileAt st.grid (jsRound st.pacman.pos.x) (jsRound st.pacman.pos.y)
          = TileType.PELLET
      · rw [eatPellets_eq_pellet st time hy0 hyh hx0 hxw hp]
        have hcount := countPellets_setTile st.grid (jsRound st.pacman.pos.x)
          (jsRound st.pacman.pos.y) TileType.EMPTY hwf hx0 hxw hy0 hyh
        rw [hp] at hcount
        simp only [show isPelletTile TileType.PELLET = true from rfl,
          show isPelletTile TileType.EMPTY = false from rfl] at hcount
        simp only [if_true, Bool.false_eq_true, if_false] at hcount
        refine ⟨?_, gridWellFormed_setTile st.grid _ _ _ hwf hy0 hyh⟩
        dsimp only
        omega
      · by_cases hpp : tileAt st.grid (jsRound st.pacman.pos.x) (jsRound st.pacman.pos.y)
            = TileType.POWER_PELLET
        · rw [eatPellets_eq_powerPellet st time hy0 hyh hx0 hxw hpp]
          have hcount := countPellets_setTile st.grid (jsRound st.pacman.pos.x)
            (jsRound st.pacman.pos.y) TileType.EMPTY hwf hx0 hxw hy0 hyh
          rw [hpp] at hcount
          simp only [show isPelletTile TileType.POWER_PELLET = true from rfl,
            show isPelletTile TileType.EMPTY = false from rfl] at hcount
          simp only [if_true, Bool.false_eq_true, if_false] at hcount
          have hwf1 := gridWellFormed_setTile st.grid (jsRound st.pacman.pos.x)
            (jsRound st.pacman.pos.y) TileType.EMPTY hwf hy0 hyh
          have hrest := restorePellets_count st.powerPelletLocations
            (setTile st.grid (jsRound st.pacman.pos.x) (jsRound st.pacman.pos.y)
              TileType.EMPTY) 0 hwf1 hlocs
          have hwfr := restorePellets_wf st.powerPelletLocations
            (setTile st.grid (jsRound st.pacman.pos.x) (jsRound st.pacman.pos.y)
              TileType.EMPTY) 0 hwf1 hlocs
          simp only [eatPowerPellet]
          split_ifs with h1 h2 h3
          · refine ⟨?_, hwfr⟩
            dsimp only
            omega
          · refine ⟨?_, hwfr⟩
            dsimp only
            omega
          · exact ⟨by dsimp only; omega, hwf1⟩
          · exact ⟨by dsimp only; omega, hwf1⟩
        · rw [eatPellets_eq_other st time hp hpp]
          exact ⟨hinv, hwf⟩
    · rw [eatPellets_oob st time hb]
      exact ⟨hinv, hwf⟩
  refine ⟨hmain.1, hmain.2, ?_, ?_⟩
  · have hbeq : (pelletPhase st time).2 = ((eatPellets st time).pelletsRemaining == 0) :=
      rfl
    rw [hbeq, beq_iff_eq, hmain.1]
    exact Int.natCast_eq_zero
  · intro r ks s0
    rfl

theorem c1_pellet_invariant_witness :
    (eatPellets c4state 100).pelletsRemaining
      = (countPellets (eatPellets c4state 100).grid : ℤ) :=
  (c1_pellet_invariant c4state 100
    (by
      show INITIAL_MAP.length = MAP_HEIGHT ∧ ∀ row ∈ INITIAL_MAP, row.length = MAP_WIDTH
      decide)
    (by
      show ∀ p ∈ powerPelletLocsOf INITIAL_MAP,
        0 ≤ p.1 ∧ p.1 < (MAP_WIDTH : ℤ) ∧ 0 ≤ p.2 ∧ p.2 < (MAP_HEIGHT : ℤ)
      decide)
    rfl).1

/-- C9: consuming a power pellet triggers the respawn scan only at the instant the live
power-pellet count reaches zero by that consumption and only if some adversary is not
EATEN — otherwise the grid change is exactly the consumed tile and the counters are the
plain decrements; when the scan runs, exactly the recorded locations whose tile is
currently EMPTY become POWER_PELLET again, and the live power-pellet count and the
pellets-remaining counter each grow by the number of tiles actually restored. -/
theorem c9_power_pellet_respawn (st : GameState) (time : ℚ)
    (hwf : gridWellFormed st.grid)
    (hlocs : locsInBounds st.powerPelletLocations)
    (hnd : st.powerPelletLocations.Nodup)
    (hy0 : 0 ≤ jsRound st.pacman.pos.y) (hyh : jsRound st.pacman.pos.y < (MAP_HEIGHT : ℤ))
    (hx0 : 0 ≤ jsRound st.pacman.pos.x) (hxw : jsRound st.pacman.pos.x < (MAP_WIDTH : ℤ))
    (hp : tileAt st.grid (jsRound st.pacman.pos.x) (jsRound st.pacman.pos.y)
        = TileType.POWER_PELLET) :
    (st.currentPowerPellets - 1 ≠ 0 →
      (eatPellets st time).grid
        = setTile st.grid (jsRound st.pacman.pos.x) (jsRound st.pacman.pos.y)
            TileType.EMPTY
      ∧ (eatPellets st time).currentPowerPellets = st.currentPowerPellets - 1
      ∧ (eatPellets st time).pelletsRemaining = st.pelletsRemaining - 1)
    ∧ ((∀ g ∈ st.ghosts, g.status = GhostStatus.EATEN) →
      (eatPellets st time).grid
        = setTile st.grid (jsRound st.pacman.pos.x) (jsRound st.pacman.pos.y)
            TileType.EMPTY
      ∧ (eatPellets st time).currentPowerPellets = st.currentPowerPellets - 1
      ∧ (eatPellets st time).pelletsRemaining = st.pelletsRemaining - 1)
    ∧ (st.currentPowerPellets - 1 = 0 →
      (∃ g ∈ st.ghosts, g.status ≠ GhostStatus.EATEN) →
      (∀ x y : ℤ, 0 ≤ x → 0 ≤ y →
        tileAt (eatPellets st time).grid x y
          = if (x, y) ∈ st.powerPelletLocations
              ∧ tileAt (setTile st.grid (jsRound st.pacman.pos.x)
                  (jsRound st.pacman.pos.y) TileType.EMPTY) x y = TileType.EMPTY
            then TileType.POWER_PELLET
            else tileAt (setTile st.grid (jsRound st.pacman.pos.x)
                  (jsRound st.pacman.pos.y) TileType.EMPTY) x y)
      ∧ (eatPellets st time).currentPowerPellets
          = (st.powerPelletLocations.countP (fun q =>
              decide (tileAt (setTile st.grid (jsRound st.pacman.pos.x)
                (jsRound st.pacman.pos.y) TileType.EMPTY) q.1 q.2 = TileType.EMPTY)) : ℤ)
      ∧ (eatPellets st time).pelletsRemaining
          = st.pelletsRemaining - 1
            + (st.powerPelletLocations.countP (fun q =>
                decide (tileAt (setTile st.grid (jsRound st.pacman.pos.x)
                  (jsRound st.pacman.pos.y) TileType.EMPTY) q.1 q.2
                  = TileType.EMPTY)) : ℤ)) := by
  rw [eatPellets_eq_powerPellet st time hy0 hyh hx0 hxw hp]
  have hwf1 := gridWellFormed_setTile st.grid (jsRound st.pacman.pos.x)
    (jsRound st.pacman.pos.y) TileType.EMPTY hwf hy0 hyh
  have hcnt := restorePellets_countRestored st.powerPelletLocations
    (setTile st.grid (jsRound st.pacman.pos.x) (jsRound st.pacman.pos.y) TileType.EMPTY)
    0 hwf1 hlocs hnd
  have htile := restorePellets_tileAt st.powerPelletLocations
    (setTile st.grid (jsRound st.pacman.pos.x) (jsRound st.pacman.pos.y) TileType.EMPTY)
    0 hwf1 hlocs hnd
  simp only [eatPowerPellet]
  refine ⟨?_, ?_, ?_⟩
  · intro hcpp
    rw [if_neg hcpp]
    exact ⟨rfl, rfl, rfl⟩
  · intro hall
    have hany : (st.ghosts.map fun g =>
        if g.status ≠ GhostStatus.EATEN then { g with status := GhostStatus.VULNERABLE }
        else g).any (fun g => decide (g.status ≠ GhostStatus.EATEN)) = false := by
      rw [anyAlive_map_vulnify]
      rw [List.any_eq_false]
      intro g hg
      simp [hall g hg]
    have hnotany : ¬((st.ghosts.map fun g =>
        if g.status ≠ GhostStatus.EATEN then { g with status := GhostStatus.VULNERABLE }
        else g).any (fun g => decide (g.status ≠ GhostStatus.EATEN)) = true) := by
      rw [hany]
      decide
    by_cases hcpp : st.currentPowerPellets - 1 = 0
    · rw [if_pos hcpp, if_neg hnotany]
      exact ⟨rfl, rfl, rfl⟩
    · rw [if_neg hcpp]
      exact ⟨rfl, rfl, rfl⟩
  · intro hcpp hex
    obtain ⟨g0, hg0, hg0ne⟩ := hex
    have hany : (st.ghosts.map fun g =>
        if g.status ≠ GhostStatus.EATEN then { g with status := GhostStatus.VULNERABLE }
        else g).any (fun g => decide (g.status ≠ GhostStatus.EATEN)) = true := by
      rw [anyAlive_map_vulnify]
      rw [List.any_eq_true]
      exact ⟨g0, hg0, by simpa using hg0ne⟩
    rw [if_pos hcpp, if_pos hany]
    by_cases hr : 0 < (restorePellets
        (setTile st.grid (jsRound st.pacman.pos.x) (jsRound st.pacman.pos.y)
          TileType.EMPTY) st.powerPelletLocations 0).2
    · rw [if_pos hr]
      refine ⟨?_, ?_, ?_⟩
      · intro x y hx hy
        exact htile x y hx hy
      · dsimp only
        rw [hcnt]
        norm_num
      · dsimp only
        rw [hcnt]
        push_cast
        ring
    · rw [if_neg hr]
      have hz : (restorePellets
          (setTile st.grid (jsRound st.pacman.pos.x) (jsRound st.pacman.pos.y)
            TileType.EMPTY) st.powerPelletLocations 0).2 = 0 := by omega
      rw [hz] at hcnt
      refine ⟨?_, ?_, ?_⟩
      · intro x y hx hy
        exact htile x y hx hy
      · dsimp only
        omega
      · dsimp only
        omega

theorem c9_power_pellet_respawn_witness :
    (eatPellets c9state 100).currentPowerPellets = 1 := by
  have hx : jsRound c9state.pacman.pos.x = 1 := by norm_num [c9state, pac11, jsRound]
  have hy : jsRound c9state.pacman.pos.y = 1 := by norm_num [c9state, pac11, jsRound]
  have h := (c9_power_pellet_respawn c9state 100
      (by
        show INITIAL_MAP.length = MAP_HEIGHT ∧ ∀ row ∈ INITIAL_MAP, row.length = MAP_WIDTH
        decide)
      (by
        show ∀ p ∈ powerPelletLocsOf INITIAL_MAP,
          0 ≤ p.1 ∧ p.1 < (MAP_WIDTH : ℤ) ∧ 0 ≤ p.2 ∧ p.2 < (MAP_HEIGHT : ℤ)
        decide)
      (by
        show (powerPelletLocsOf INITIAL_MAP).Nodup
        decide)
      (by rw [hy]; decide) (by rw [hy]; decide) (by rw [hx]; decide) (by rw [hx]; decide)
      (by rw [hx, hy]; decide)).2.2
    (by decide)
    ⟨ghostA, show ghostA ∈ [ghostA] from List.mem_cons_self _ _, by decide⟩
  rw [h.2.1, hx, hy]
  decide
